import Mathlib

/-!
# symmetric-transfer: coroutine handle, generator and task

A shallow embedding of `src/main.cc`.

The program is written against the compiler's coroutine builtins
(`__builtin_coro_resume`, `__builtin_coro_destroy`, `__builtin_coro_done`,
`__builtin_coro_promise`).  They are not part of the repository; the embedding
takes them as a record `Builtins` and instantiates it twice: once for frames of
a `generator<T>` coroutine, once for frames of a `task` coroutine.  The classes
of the source (`coroutine_handle`, `generator`, `generator::iterator`,
`generator::promise_type`, `task`, `task::awaiter`, ...) are translated
function by function on top of that record.

Pointers are natural numbers, `0` is `nullptr`, and the frame at address
`a + 1` is the `a`-th entry of the heap.
-/

namespace SymmetricTransfer

/-! ## Outcomes -/

/-- How a call ends.  `ok a s` is a normal return with value `a` and heap `s`;
`threw s` is a C++ exception leaving the call with heap `s`; `assertFail` is a
failed `assert` (the process aborts); `ub` is undefined behaviour reached inside
a builtin; `outOfFuel` is the bound of a bounded loop of the model being hit. -/
inductive Outcome (S α : Type) where
  | ok (a : α) (s : S)
  | threw (s : S)
  | assertFail
  | ub
  | outOfFuel
  deriving DecidableEq

namespace Outcome

/-- Sequencing: the continuation runs only after a normal return. -/
def bind {S α β : Type} (x : Outcome S α) (f : α → S → Outcome S β) : Outcome S β :=
  match x with
  | ok a s => f a s
  | threw s => threw s
  | assertFail => assertFail
  | ub => ub
  | outOfFuel => outOfFuel

/-- The heap a call leaves behind, when it leaves one. -/
def heap? {S α : Type} : Outcome S α → Option S
  | ok _ s => some s
  | threw s => some s
  | _ => none

end Outcome

/-! ## The compiler builtins, as a parameter -/

/-- The coroutine builtins the source calls, over a heap type `S`. -/
structure Builtins (S : Type) where
  /-- Models `__builtin_coro_done(p)`. -/
  coro_done : Nat → S → Outcome S Bool
  /-- Models `__builtin_coro_resume(p)`. -/
  coro_resume : Nat → S → Outcome S Unit
  /-- Models `__builtin_coro_destroy(p)`. -/
  coro_destroy : Nat → S → Outcome S Unit

/-! ## `coroutine_handle<void>` (main.cc 30-77) -/

/-- The class `coroutine_handle<>`: one `void* handle_`. -/
structure coroutine_handle where
  handle_ : Nat
  deriving DecidableEq

namespace coroutine_handle

/-- The constructors `coroutine_handle()` and `coroutine_handle(nullptr_t)`. -/
def null : coroutine_handle := ⟨0⟩

/-- The member `address()`. -/
def address (h : coroutine_handle) : Nat := h.handle_

/-- The member `explicit operator bool()`: `return this->handle_`. -/
def toBool (h : coroutine_handle) : Bool := h.handle_ != 0

/-- The private member `is_suspended()`: `return this->handle_`. -/
def is_suspended (h : coroutine_handle) : Bool := h.handle_ != 0

/-- The member `done()`: `assert(is_suspended()); return __builtin_coro_done(handle_)`. -/
def done {S : Type} (B : Builtins S) (h : coroutine_handle) (s : S) : Outcome S Bool :=
  if h.is_suspended then B.coro_done h.handle_ s else .assertFail

/-- The member `resume()`:
`assert(is_suspended()); assert(!done()); __builtin_coro_resume(handle_)`. -/
def resume {S : Type} (B : Builtins S) (h : coroutine_handle) (s : S) : Outcome S Unit :=
  if h.is_suspended then
    (h.done B s).bind fun d s1 =>
      if !d then B.coro_resume h.handle_ s1 else .assertFail
  else .assertFail

/-- The member `destroy()`: `assert(is_suspended()); __builtin_coro_destroy(handle_)`. -/
def destroy {S : Type} (B : Builtins S) (h : coroutine_handle) (s : S) : Outcome S Unit :=
  if h.is_suspended then B.coro_destroy h.handle_ s else .assertFail

/-- The friend `operator==`: `lhs.address() == rhs.address()`. -/
def operator_eq (lhs rhs : coroutine_handle) : Bool := lhs.address == rhs.address

/-- The friend `operator<`: `less<void*>()(lhs.address(), rhs.address())`. -/
def operator_lt (lhs rhs : coroutine_handle) : Bool := decide (lhs.address < rhs.address)

/-- The specialisation `hash<coroutine_handle<T>>` (main.cc 174-180):
`hash<void*>()(v.address())`, for a given pointer hash. -/
def hash (hashPtr : Nat → Nat) (v : coroutine_handle) : Nat := hashPtr v.address

end coroutine_handle

/-! ## `coroutine_handle<noop_coroutine_promise>` (main.cc 128-155) -/

/-- The class `coroutine_handle<noop_coroutine_promise>`: the inherited
`void* handle_`. -/
structure noop_coroutine_handle where
  handle_ : Nat
  deriving DecidableEq

namespace noop_coroutine_handle

/-- The private constructor: `this->handle_ = __builtin_coro_noop();`, where
`coro_noop` is the address the builtin returns. -/
def ctor (coro_noop : Nat) : noop_coroutine_handle := ⟨coro_noop⟩

/-- The member `explicit operator bool()`: `return true;`. -/
def toBool (_ : noop_coroutine_handle) : Bool := true

/-- The member `done()`: `return false;`. -/
def done (_ : noop_coroutine_handle) : Bool := false

/-- The members `operator()()` and `resume()`: empty bodies. -/
def resume {S : Type} (_ : noop_coroutine_handle) (s : S) : Outcome S Unit := .ok () s

/-- The member `destroy()`: empty body. -/
def destroy {S : Type} (_ : noop_coroutine_handle) (s : S) : Outcome S Unit := .ok () s

end noop_coroutine_handle

/-! ## `suspend_never`, `suspend_always` (main.cc 157-167) -/

/-- The struct `suspend_never`. -/
structure suspend_never where
  deriving DecidableEq

/-- The struct `suspend_always`. -/
structure suspend_always where
  deriving DecidableEq

/-- The member `suspend_never::await_ready()`. -/
def suspend_never.await_ready (_ : suspend_never) : Bool := true

/-- The member `suspend_always::await_ready()`. -/
def suspend_always.await_ready (_ : suspend_always) : Bool := false

/-! ## Frames -/

/-- Where a frame is, as the builtins see it: parked at the initial suspension
point or at a `co_yield` / `co_await` (`suspended`), executing (`running`),
parked at the final suspension point (`final`), or freed (`destroyed`). -/
inductive Status where
  | suspended
  | running
  | final
  | destroyed
  deriving DecidableEq

/-- The frame stored at address `a` of a heap, if any (`0` is `nullptr`). -/
def frameAt {F : Type} (heap : List F) : Nat → Option F
  | 0 => none
  | a + 1 => heap[a]?

/-- The heap with the frame at address `a` replaced. -/
def storeAt {F : Type} (heap : List F) (a : Nat) (f : F) : List F :=
  match a with
  | 0 => heap
  | a + 1 => heap.set a f

/-! ## `generator<T>` (main.cc 182-285) -/

/-- The struct `generator<T>`: one `coroutine_handle<promise_type> coro_`. -/
structure generator where
  coro_ : coroutine_handle
  deriving DecidableEq

namespace generator

/-- The struct `generator<T>::promise_type`: the member `T value_`.  It is
default-initialised, so it holds no value (`none`) until the first `co_yield`. -/
structure promise_type (T : Type) where
  value_ : Option T
  deriving DecidableEq

namespace promise_type

variable {T : Type}

/-- The member `get_return_object()`: `generator{*this}`, whose constructor takes
`coroutine_handle<promise_type>::from_promise(prom)`, the handle of the frame
(at address `frameAddr`) that holds this promise. -/
def get_return_object (_ : promise_type T) (frameAddr : Nat) : generator := ⟨⟨frameAddr⟩⟩

/-- The member `initial_suspend()`. -/
def initial_suspend (_ : promise_type T) : suspend_always := {}

/-- The member `final_suspend()`. -/
def final_suspend (_ : promise_type T) : suspend_always := {}

/-- The member `unhandled_exception() { throw; }`: the promise is untouched and
the handler is left by the rethrown exception (`true`). -/
def unhandled_exception (p : promise_type T) : promise_type T × Bool := (p, true)

/-- The member `yield_value(value)`: `this->value_ = value; return {};`. -/
def yield_value (_ : promise_type T) (value : T) : promise_type T × suspend_always :=
  ({ value_ := some value }, {})

/-- The member `return_void()`. -/
def return_void (p : promise_type T) : promise_type T := p

end promise_type

/-- What the body of a producer does when it is resumed with locals `σ`: it
reaches `co_yield v` (and its locals become `next`), or it returns, or an
exception escapes its body. -/
inductive BodyStep (σ T : Type) where
  | yield (v : T) (next : σ)
  | ret
  | raise
  deriving DecidableEq

/-- The frame of a `generator<T>` coroutine: its status, its promise, the
locals of the body, and a count of the `__builtin_coro_resume` calls on it. -/
structure Frame (σ T : Type) where
  status : Status
  promise : promise_type T
  locals : σ
  resumes : Nat
  deriving DecidableEq

variable {σ T : Type}

/-- The frame after the body ran from its current suspension point to the next
one, and whether an exception leaves the frame.

* `co_yield v` is `co_await promise.yield_value(v)`; the awaiter is a
  `suspend_always`, whose `await_ready()` is `false`, so the frame parks.
* Falling off the end calls `return_void()` and then awaits `final_suspend()`:
  the frame parks at the final suspension point unless the awaiter is ready, in
  which case the frame is freed.
* An escaping exception calls `unhandled_exception()`; when that rethrows, the
  frame counts as suspended at the final suspension point and the exception
  reaches the resumer. -/
def Frame.run (body : σ → BodyStep σ T) (f : Frame σ T) : Frame σ T × Bool :=
  match body f.locals with
  | .yield v next =>
      let r := f.promise.yield_value v
      ({ f with status := .suspended, promise := r.1, locals := next }, false)
  | .ret =>
      let p := f.promise.return_void
      if p.final_suspend.await_ready then
        ({ f with status := .destroyed, promise := p }, false)
      else
        ({ f with status := .final, promise := p }, false)
  | .raise =>
      let r := f.promise.unhandled_exception
      if r.2 then
        ({ f with status := .final, promise := r.1 }, true)
      else if r.1.final_suspend.await_ready then
        ({ f with status := .destroyed, promise := r.1 }, false)
      else
        ({ f with status := .final, promise := r.1 }, false)

/-- The builtins on a heap of generator frames whose body is `body`.
`done` and `destroy` need a frame parked at a suspension point, `resume` one
parked at a suspension point other than the final one; anything else is
undefined behaviour. -/
def builtins (body : σ → BodyStep σ T) : Builtins (List (Frame σ T)) where
  coro_done a heap :=
    match frameAt heap a with
    | some f =>
        match f.status with
        | .suspended => .ok false heap
        | .final => .ok true heap
        | .running => .ub
        | .destroyed => .ub
    | none => .ub
  coro_resume a heap :=
    match frameAt heap a with
    | some f =>
        match f.status with
        | .suspended =>
            let r := Frame.run body { f with status := .running, resumes := f.resumes + 1 }
            if r.2 then .threw (storeAt heap a r.1) else .ok () (storeAt heap a r.1)
        | _ => .ub
    | none => .ub
  coro_destroy a heap :=
    match frameAt heap a with
    | some f =>
        match f.status with
        | .suspended => .ok () (storeAt heap a { f with status := .destroyed })
        | .final => .ok () (storeAt heap a { f with status := .destroyed })
        | .running => .ub
        | .destroyed => .ub
    | none => .ub

/-- Calling a producer with arguments `args`: a frame is allocated at the next
free address, `get_return_object()` makes the generator, and the body starts
only if the awaiter of `initial_suspend()` is ready. -/
def create (body : σ → BodyStep σ T) (args : σ) (heap : List (Frame σ T)) :
    Outcome (List (Frame σ T)) generator :=
  let p : promise_type T := { value_ := none }
  let g := p.get_return_object (heap.length + 1)
  let f : Frame σ T := { status := .suspended, promise := p, locals := args, resumes := 0 }
  if p.initial_suspend.await_ready then
    let r := Frame.run body { f with status := .running }
    if r.2 then .threw (heap ++ [{ r.1 with status := .destroyed }]) else .ok g (heap ++ [r.1])
  else .ok g (heap ++ [f])

/-- The struct `generator<T>::iterator`: one `coroutine_handle<promise_type> coro_`. -/
structure iterator where
  coro_ : coroutine_handle
  deriving DecidableEq

namespace iterator

/-- The member `operator++()`:
`if (coro_.done()) coro_ = nullptr; else coro_.resume(); return *this;`. -/
def operator_inc {S : Type} (B : Builtins S) (it : iterator) (heap : S) : Outcome S iterator :=
  (it.coro_.done B heap).bind fun d heap1 =>
    if d then .ok { coro_ := .null } heap1
    else (it.coro_.resume B heap1).bind fun _ heap2 => .ok it heap2

/-- The friend `operator==(iterator const& lhs, default_sentinel_t)`:
`return lhs.coro_.done();`. -/
def operator_eq {S : Type} (B : Builtins S) (lhs : iterator) (heap : S) : Outcome S Bool :=
  lhs.coro_.done B heap

/-- The friend `operator!=(default_sentinel_t, iterator const& rhs)`:
`return rhs.coro_.done();`. -/
def operator_ne {S : Type} (B : Builtins S) (rhs : iterator) (heap : S) : Outcome S Bool :=
  rhs.coro_.done B heap

/-- The member `operator*()`: `return coro_.promise().value_;`.  The promise
lives in the frame, so a null handle or a freed frame is undefined behaviour, and
so is reading a `value_` that was never assigned. -/
def operator_deref (it : iterator) (heap : List (Frame σ T)) : Outcome (List (Frame σ T)) T :=
  match frameAt heap it.coro_.handle_ with
  | some f =>
      match f.status with
      | .destroyed => .ub
      | _ =>
          match f.promise.value_ with
          | some v => .ok v heap
          | none => .ub
  | none => .ub

end iterator

/-- The member `begin()`. -/
def begin {S : Type} (B : Builtins S) (g : generator) (heap : S) : Outcome S iterator :=
  if g.coro_.toBool then
    (g.coro_.done B heap).bind fun d heap1 =>
      if d then .ok { coro_ := .null } heap1
      else (g.coro_.resume B heap1).bind fun _ heap2 => .ok { coro_ := g.coro_ } heap2
  else .ok { coro_ := g.coro_ } heap

/-- The member `empty()`: `return this->coro_.done();`. -/
def empty {S : Type} (B : Builtins S) (g : generator) (heap : S) : Outcome S Bool :=
  g.coro_.done B heap

/-- The default constructor: `coro_ = nullptr`. -/
def default_ctor : generator := { coro_ := .null }

/-- The move constructor: `coro_(std::exchange(rhs.coro_, nullptr))`.  Returns
the new generator and `rhs` as it is left. -/
def move_ctor (rhs : generator) : generator × generator :=
  ({ coro_ := rhs.coro_ }, { coro_ := .null })

/-- The destructor: `if (coro_) coro_.destroy();`. -/
def dtor {S : Type} (B : Builtins S) (g : generator) (heap : S) : Outcome S Unit :=
  if g.coro_.toBool then g.coro_.destroy B heap else .ok () heap

/-- The loop of `for (auto item : g)` after `begin()`: while `b != end()`, which
the language rewrites to `!(b == end())`, read `*b`, run the loop body (here:
append the item to `acc`), then `++b`.  At most `fuel` tests are made. -/
def rangeLoop (B : Builtins (List (Frame σ T))) :
    Nat → iterator → List T → List (Frame σ T) → Outcome (List (Frame σ T)) (List T × iterator)
  | 0, _, _, _ => .outOfFuel
  | fuel + 1, b, acc, heap =>
      (b.operator_eq B heap).bind fun atEnd heap1 =>
        if atEnd then .ok (acc, b) heap1
        else
          (b.operator_deref heap1).bind fun item heap2 =>
            (b.operator_inc B heap2).bind fun b1 heap3 =>
              rangeLoop B fuel b1 (acc ++ [item]) heap3

/-- The statement `for (auto item : g) ...`: the items seen by the loop body, in
order, and the iterator the loop stopped at. -/
def rangeFor (B : Builtins (List (Frame σ T))) (fuel : Nat) (g : generator)
    (heap : List (Frame σ T)) : Outcome (List (Frame σ T)) (List T × iterator) :=
  (g.begin B heap).bind fun b heap1 => rangeLoop B fuel b [] heap1

end generator

/-! ## The producer of `main` (main.cc 358-368) -/

/-- The locals of the lambda `iota`: the parameter `n` and the loop variable `i`
(`none` before the loop is entered). -/
structure IotaLocals where
  n : Int
  i : Option Int
  deriving DecidableEq

/-- The body `for (int i = 0; i < n; ++i) co_yield i;`, from one suspension
point to the next.  Every `i` it increments is below `n`, so `++i` stays in the
range of `int`. -/
def iota (s : IotaLocals) : generator.BodyStep IotaLocals Int :=
  let i : Int :=
    match s.i with
    | none => 0
    | some i => i + 1
  if i < s.n then .yield i { s with i := some i } else .ret

/-- From locals `s` the body yields exactly the values `vs`, in order, and then
ends: by returning when `fails` is `false`, by an escaping exception when it is
`true`. -/
def generator.Produces {σ T : Type} (body : σ → generator.BodyStep σ T) :
    σ → List T → Bool → Prop
  | s, [], fails =>
      match body s with
      | .yield _ _ => False
      | .ret => fails = false
      | .raise => fails = true
  | s, v :: vs, fails =>
      match body s with
      | .yield w next => w = v ∧ generator.Produces body next vs fails
      | .ret => False
      | .raise => False

/-- A heap of frames of `iota`. -/
abbrev IotaHeap : Type := List (generator.Frame IotaLocals Int)

/-- The call `iota(n)`. -/
def iotaCall (n : Int) (heap : IotaHeap) : Outcome IotaHeap generator :=
  generator.create iota { n := n, i := none } heap

/-- An example producer that is not in `main.cc`, used to instantiate statements
about producers that fail: with locals `(vs, fails)` it is the body
`for (auto v : vs) co_yield v; if (fails) throw ...;`. -/
def scripted {T : Type} : List T × Bool → generator.BodyStep (List T × Bool) T
  | (v :: vs, fails) => .yield v (vs, fails)
  | ([], false) => .ret
  | ([], true) => .raise

/-! ## Lifetime of `generator` objects (main.cc 261-281) -/

namespace generator

/-- The move assignment `operator=(generator&& rhs)`:
`if (this != &rhs) this->coro_ = std::exchange(rhs.coro_, nullptr);`.
`same` tells whether `this == &rhs`; the result is `*this` and `rhs` as left. -/
def move_assign (same : Bool) (self rhs : generator) : generator × generator :=
  if !same then ({ coro_ := rhs.coro_ }, { coro_ := .null }) else (self, rhs)

/-- The generator objects of a program and the heap of frames.  Object `i` is
`objs[i]`; it is `none` once its destructor has run. -/
structure World (σ T : Type) where
  objs : List (Option generator)
  heap : List (Frame σ T)
  deriving DecidableEq

/-- One lifetime operation on generator objects. -/
inductive LifetimeOp (σ : Type) where
  /-- Creates an object by `producer(args)`. -/
  | call (args : σ)
  /-- Creates an object by `generator g;`. -/
  | default_ctor
  /-- Creates an object by `generator g(std::move(objs[src]));`. -/
  | move_ctor (src : Nat)
  /-- Runs `objs[dst] = std::move(objs[src]);`. -/
  | move_assign (dst src : Nat)
  /-- Ends the lifetime of `objs[obj]`. -/
  | dtor (obj : Nat)
  deriving DecidableEq

/-- Lifts an outcome on the heap to an outcome on the world with objects `objs`. -/
def liftWorld {σ T α : Type} (objs : List (Option generator))
    (x : Outcome (List (Frame σ T)) α) : Outcome (World σ T) α :=
  match x with
  | .ok a heap => .ok a { objs := objs, heap := heap }
  | .threw heap => .threw { objs := objs, heap := heap }
  | .assertFail => .assertFail
  | .ub => .ub
  | .outOfFuel => .outOfFuel

/-- The object in slot `i`, if it is alive. -/
def World.obj? {σ T : Type} (w : World σ T) (i : Nat) : Option generator :=
  match w.objs[i]? with
  | some (some g) => some g
  | _ => none

/-- One lifetime operation.  Naming an object that is not alive is undefined
behaviour. -/
def applyOp {σ T : Type} (body : σ → BodyStep σ T) (w : World σ T) :
    LifetimeOp σ → Outcome (World σ T) Unit
  | .call args =>
      (liftWorld w.objs (create body args w.heap)).bind fun g w1 =>
        .ok () { w1 with objs := w1.objs ++ [some g] }
  | .default_ctor => .ok () { w with objs := w.objs ++ [some default_ctor] }
  | .move_ctor src =>
      match w.obj? src with
      | some rhs =>
          let r := move_ctor rhs
          .ok () { w with objs := (w.objs.set src (some r.2)) ++ [some r.1] }
      | none => .ub
  | .move_assign dst src =>
      match w.obj? dst, w.obj? src with
      | some self, some rhs =>
          let r := move_assign (dst == src) self rhs
          .ok () { w with objs := (w.objs.set src (some r.2)).set dst (some r.1) }
      | _, _ => .ub
  | .dtor obj =>
      match w.obj? obj with
      | some g =>
          (liftWorld (w.objs.set obj none) (g.dtor (builtins body) w.heap)).bind fun _ w1 =>
            .ok () w1
      | none => .ub

/-- A sequence of lifetime operations, in order. -/
def runOps {σ T : Type} (body : σ → BodyStep σ T) :
    List (LifetimeOp σ) → World σ T → Outcome (World σ T) Unit
  | [], w => .ok () w
  | op :: ops, w => (applyOp body w op).bind fun _ w1 => runOps body ops w1

/-- The `n`-th advance of a consumer: `begin()` when it holds no iterator yet,
`++it` afterwards. -/
def advance {S : Type} (B : Builtins S) (g : generator) (it : Option iterator) (heap : S) :
    Outcome S iterator :=
  match it with
  | none => g.begin B heap
  | some it => it.operator_inc B heap

/-- A consumer that advances `m` times and dereferences the iterator after each
advance: the iterator it holds and the values it has read. -/
def consume (B : Builtins (List (Frame σ T))) (g : generator) :
    Nat → Option iterator → List T → List (Frame σ T)
      → Outcome (List (Frame σ T)) (Option iterator × List T)
  | 0, it, acc, heap => .ok (it, acc) heap
  | m + 1, it, acc, heap =>
      (advance B g it heap).bind fun it1 heap1 =>
        (it1.operator_deref heap1).bind fun v heap2 =>
          consume B g m (some it1) (acc ++ [v]) heap2

end generator

/-! ## Repeated advances, and the range-for under the contract of dereference -/

namespace generator

/-- The pre-increment applied `n` times in a row: `++it; ++it; ...`. -/
def iterator.advances {S : Type} (B : Builtins S) : Nat → iterator → S → Outcome S iterator
  | 0, it, heap => .ok it heap
  | n + 1, it, heap =>
      (it.operator_inc B heap).bind fun it1 heap1 => iterator.advances B n it1 heap1

/-- The member `operator*()` held to the contract of dereference: reading through
an iterator whose frame is finished counts as a violation (`ub`); any other
read is `operator_deref`. -/
def iterator.checked_deref {σ T : Type} (it : iterator) (heap : List (Frame σ T)) :
    Outcome (List (Frame σ T)) T :=
  match frameAt heap it.coro_.handle_ with
  | some f =>
      match f.status with
      | .final => .ub
      | _ => it.operator_deref heap
  | none => .ub

/-- The loop `rangeLoop`, with every dereference held to its contract. -/
def rangeLoopChecked {σ T : Type} (B : Builtins (List (Frame σ T))) :
    Nat → iterator → List T → List (Frame σ T) → Outcome (List (Frame σ T)) (List T × iterator)
  | 0, _, _, _ => .outOfFuel
  | fuel + 1, b, acc, heap =>
      (b.operator_eq B heap).bind fun atEnd heap1 =>
        if atEnd then .ok (acc, b) heap1
        else
          (b.checked_deref heap1).bind fun item heap2 =>
            (b.operator_inc B heap2).bind fun b1 heap3 =>
              rangeLoopChecked B fuel b1 (acc ++ [item]) heap3

/-- The statement `rangeFor`, with every dereference held to its contract. -/
def rangeForChecked {σ T : Type} (B : Builtins (List (Frame σ T))) (fuel : Nat) (g : generator)
    (heap : List (Frame σ T)) : Outcome (List (Frame σ T)) (List T × iterator) :=
  (g.begin B heap).bind fun b heap1 => rangeLoopChecked B fuel b [] heap1

end generator

/-! ## `task` (main.cc 288-352) -/

/-- The class `task`: one `coroutine_handle<promise_type> coro_`. -/
structure task where
  coro_ : coroutine_handle
  deriving DecidableEq

namespace task

/-- The class `task::promise_type`: the member `coroutine_handle<> continuation`. -/
structure promise_type where
  continuation : coroutine_handle
  deriving DecidableEq

/-- The struct `task::promise_type::final_awaiter`. -/
structure final_awaiter where
  deriving DecidableEq

/-- The class `task::awaiter`: one `coroutine_handle<task::promise_type> coro_`. -/
structure awaiter where
  coro_ : coroutine_handle
  deriving DecidableEq

namespace promise_type

/-- The default member initialiser: `continuation` is a default-constructed
`coroutine_handle<>`, whose constructor sets `handle_(nullptr)`. -/
def init : promise_type := { continuation := coroutine_handle.null }

/-- The member `get_return_object()`:
`task{coroutine_handle<promise_type>::from_promise(*this)}`, the handle of the
frame (at address `frameAddr`) that holds this promise. -/
def get_return_object (_ : promise_type) (frameAddr : Nat) : task := ⟨⟨frameAddr⟩⟩

/-- The member `initial_suspend()`. -/
def initial_suspend (_ : promise_type) : suspend_always := {}

/-- The member `return_void()`. -/
def return_void (p : promise_type) : promise_type := p

/-- The member `unhandled_exception() { throw; }`. -/
def unhandled_exception (p : promise_type) : promise_type × Bool := (p, true)

/-- The member `final_suspend()`. -/
def final_suspend (_ : promise_type) : final_awaiter := {}

end promise_type

/-- The body of a coroutine that awaits tasks: `co_await c1(); co_await c2(); ...`
for the task coroutines `c1, c2, ...` with the given bodies, and then falls off
its end. -/
inductive Body where
  | awaits (children : List Body)

/-- The promise a frame holds: that of a `generator<T>` coroutine (whose body
here never yields), or that of a `task` coroutine. -/
inductive Promise where
  | generator
  | task (p : promise_type)

/-- A resume made by the two `await_suspend` members of `task`, with the address
of the frame that is resumed: `await_resume child continuation` is
`awaiter::await_suspend` resuming the task frame `child` after storing
`continuation`; `final_resume frame continuation` is
`final_awaiter::await_suspend` of `frame` resuming its stored `continuation`. -/
inductive Event where
  | await_resume (child continuation : Nat)
  | final_resume (frame continuation : Nat)
  deriving DecidableEq

/-- A frame: its status, its promise, the statements of its body still to run,
the temporary `task` of the `co_await` expression it is parked in (if any), and
a count of the `__builtin_coro_resume` calls on it. -/
structure Frame where
  status : Status
  promise : Promise
  rest : List Body
  awaited : Option task
  resumes : Nat

/-- The frames and the log of resumes made by `await_suspend` members. -/
structure Heap where
  frames : List Frame
  trace : List Event

/-- The heap with the frame at address `a` changed by `g`. -/
def Heap.modify (heap : Heap) (a : Nat) (g : Frame → Frame) : Heap :=
  match frameAt heap.frames a with
  | some f => { heap with frames := storeAt heap.frames a (g f) }
  | none => heap

/-- The member `final_awaiter::await_ready()`. -/
def final_awaiter.await_ready (_ : final_awaiter) : Bool := false

/-- The member `final_awaiter::await_suspend(h)`:
`h.promise().continuation.resume();`. -/
def final_awaiter.await_suspend (B : Builtins Heap) (_ : final_awaiter) (h : coroutine_handle)
    (heap : Heap) : Outcome Heap Unit :=
  match frameAt heap.frames h.handle_ with
  | some f =>
      match f.status, f.promise with
      | .destroyed, _ => .ub
      | _, .generator => .ub
      | _, .task p =>
          p.continuation.resume B
            { heap with
              trace := heap.trace ++ [.final_resume h.handle_ p.continuation.handle_] }
  | none => .ub

/-- The member `awaiter::await_ready()`. -/
def awaiter.await_ready (_ : awaiter) : Bool := false

/-- The member `awaiter::await_suspend(continuation)`:
`coro_.promise().continuation = continuation; coro_.resume();`. -/
def awaiter.await_suspend (B : Builtins Heap) (aw : awaiter) (continuation : coroutine_handle)
    (heap : Heap) : Outcome Heap Unit :=
  match frameAt heap.frames aw.coro_.handle_ with
  | some f =>
      match f.status, f.promise with
      | .destroyed, _ => .ub
      | _, .generator => .ub
      | _, .task p =>
          aw.coro_.resume B
            { frames := storeAt heap.frames aw.coro_.handle_
                { f with promise := .task { p with continuation := continuation } }
              trace := heap.trace ++ [.await_resume aw.coro_.handle_ continuation.handle_] }
  | none => .ub

/-- The member `operator co_await() &&`: `return awaiter{coro_};`. -/
def operator_co_await (t : task) : awaiter := { coro_ := t.coro_ }

/-- The move constructor: `coro_(std::exchange(t.coro_, {}))`.  Returns the new
task and `t` as it is left. -/
def move_ctor (t : task) : task × task := ({ coro_ := t.coro_ }, { coro_ := .null })

/-- The destructor: `if (coro_) coro_.destroy();`. -/
def dtor {S : Type} (B : Builtins S) (t : task) (heap : S) : Outcome S Unit :=
  if t.coro_.toBool then t.coro_.destroy B heap else .ok () heap

/-- The frame at `a` reaches the end of its body: `return_void()`, then
`co_await final_suspend()`.  A generator frame parks there.  A task frame is
marked as suspended at its final suspension point and `await_suspend` of its
`final_awaiter` runs. -/
def finish (B : Builtins Heap) (a : Nat) (heap : Heap) : Outcome Heap Unit :=
  match frameAt heap.frames a with
  | some f =>
      match f.promise with
      | .generator => .ok () (heap.modify a fun f0 => { f0 with status := .final })
      | .task p =>
          let p1 := p.return_void
          let fa := p1.final_suspend
          if fa.await_ready then
            .ok () (heap.modify a fun f0 => { f0 with status := .destroyed, promise := .task p1 })
          else
            fa.await_suspend B ⟨a⟩
              (heap.modify a fun f0 => { f0 with status := .final, promise := .task p1 })
  | none => .ub

/-- The frame at `a` runs from where it was parked to its next suspension
point, given how a new task frame is made (`mk`).

* If it was parked in a `co_await`, `await_resume()` returns and the temporary
  `task` of that expression is destroyed.
* At the end of the body the frame finishes (`finish`).
* At `co_await c()`: the call `c()` makes the task, `operator co_await` makes its
  awaiter, whose `await_ready()` is `false`; the frame is parked, keeping the
  temporary task, and `await_suspend` is called with the handle of this frame. -/
def run (B : Builtins Heap) (mk : List Body → Heap → Outcome Heap task) (a : Nat) (heap : Heap) :
    Outcome Heap Unit :=
  match frameAt heap.frames a with
  | some f =>
      (match f.awaited with
        | some t => t.dtor B heap
        | none => .ok () heap).bind fun _ heap1 =>
      match f.rest with
      | [] => finish B a (heap1.modify a fun f0 => { f0 with awaited := none })
      | .awaits children :: rest =>
          (mk children heap1).bind fun t heap2 =>
            t.operator_co_await.await_suspend B ⟨a⟩
              (heap2.modify a fun f0 =>
                { f0 with status := .suspended, rest := rest, awaited := some t })
  | none => .ub

/-- Calling a task coroutine with body `body`: a frame is allocated at the next
free address with a fresh promise, `get_return_object()` makes the task, and
the body starts only if the awaiter of `initial_suspend()` is ready. -/
def create (B : Builtins Heap) : Nat → List Body → Heap → Outcome Heap task
  | 0, _, _ => .outOfFuel
  | fuel + 1, body, heap =>
      let p := promise_type.init
      let a := heap.frames.length + 1
      let t := p.get_return_object a
      let f : Frame :=
        { status := .suspended, promise := .task p, rest := body, awaited := none, resumes := 0 }
      if p.initial_suspend.await_ready then
        (run B (create B fuel) a
          { heap with frames := heap.frames ++ [{ f with status := .running }] }).bind
          fun _ heap1 => .ok t heap1
      else .ok t { heap with frames := heap.frames ++ [f] }

/-- Calling a `generator<T>` coroutine whose body awaits tasks (`body`): the
frame is parked at its initial suspension point (`suspend_always`). -/
def callGenerator (body : List Body) (heap : Heap) : generator × Heap :=
  (⟨⟨heap.frames.length + 1⟩⟩,
   { heap with
     frames := heap.frames ++
       [{ status := .suspended, promise := .generator, rest := body, awaited := none,
          resumes := 0 }] })

/-- Models `__builtin_coro_done` on this heap. -/
def coro_done (a : Nat) (heap : Heap) : Outcome Heap Bool :=
  match frameAt heap.frames a with
  | some f =>
      match f.status with
      | .suspended => .ok false heap
      | .final => .ok true heap
      | .running => .ub
      | .destroyed => .ub
  | none => .ub

/-- Models `__builtin_coro_destroy` on this heap. -/
def coro_destroy (a : Nat) (heap : Heap) : Outcome Heap Unit :=
  match frameAt heap.frames a with
  | some f =>
      match f.status with
      | .suspended => .ok () (heap.modify a fun f0 => { f0 with status := .destroyed })
      | .final => .ok () (heap.modify a fun f0 => { f0 with status := .destroyed })
      | .running => .ub
      | .destroyed => .ub
  | none => .ub

/-- Models `__builtin_coro_resume` on this heap, given the builtins the resumed
body itself calls: a parked frame starts running and runs to its next
suspension point. -/
def coro_resume (B : Builtins Heap) (fuel : Nat) (a : Nat) (heap : Heap) : Outcome Heap Unit :=
  match frameAt heap.frames a with
  | some f =>
      match f.status with
      | .suspended =>
          run B (create B fuel) a
            (heap.modify a fun f0 => { f0 with status := .running, resumes := f0.resumes + 1 })
      | _ => .ub
  | none => .ub

/-- The builtins on this heap.  A resume may resume other frames from inside
(an awaited task is resumed by `awaiter::await_suspend`, a continuation by
`final_awaiter::await_suspend`); `fuel` bounds the depth of that nesting. -/
def builtins : Nat → Builtins Heap
  | 0 =>
      { coro_done := coro_done
        coro_resume := fun _ _ => .outOfFuel
        coro_destroy := coro_destroy }
  | fuel + 1 =>
      { coro_done := coro_done
        coro_resume := coro_resume (builtins fuel) (fuel + 1)
        coro_destroy := coro_destroy }

/-- The body of the `n`-th task of a chain: the innermost task (`n = 0`) awaits
nothing; the next one is `co_await t();` for a task `t` with the body below. -/
def chainBody : Nat → List Body
  | 0 => []
  | n + 1 => [.awaits (chainBody n)]

/-- The number of resumes of a chain task that has completed: one to start it,
and one more as the continuation of the task it awaited, if it awaited one. -/
def topResumes : Nat → Nat
  | 0 => 1
  | _ + 1 => 2

/-- The frames of the `n` tasks nested below the frame at address `a`, once the
chain has unwound: each is destroyed and stores the frame above it as its
continuation. -/
def descendants (a : Nat) : Nat → List Frame
  | 0 => []
  | n + 1 =>
      { status := .destroyed, promise := .task ⟨⟨a⟩⟩, rest := [], awaited := none,
        resumes := topResumes n } :: descendants (a + 1) n

/-- The resumes logged while the task at address `a`, with continuation `c` and
`n` tasks nested below it, runs to completion. -/
def chainEvents (a c : Nat) : Nat → List Event
  | 0 => [.await_resume a c, .final_resume a c]
  | n + 1 => [.await_resume a c] ++ chainEvents (a + 1) a n ++ [.final_resume a c]

end task

end SymmetricTransfer

/-! # Theorems -/

namespace SymmetricTransfer

/-! ## Lemmas on the heap and on handles -/

section HeapLemmas

variable {F : Type}

theorem frameAt_ne_zero {heap : List F} {a : Nat} {f : F} (h : frameAt heap a = some f) :
    a ≠ 0 := by
  rintro rfl
  simp [frameAt] at h

theorem frameAt_storeAt_same {heap : List F} {a : Nat} {f g : F}
    (h : frameAt heap a = some f) : frameAt (storeAt heap a g) a = some g := by
  cases a with
  | zero => simp [frameAt] at h
  | succ a =>
      simp only [frameAt, storeAt] at h ⊢
      have hlt : a < heap.length := by
        by_contra hge
        rw [List.getElem?_eq_none (Nat.le_of_not_lt hge)] at h
        exact Option.noConfusion h
      simp [List.getElem?_set, hlt]

theorem frameAt_storeAt_other {heap : List F} {a b : Nat} {g : F} (hab : a ≠ b) :
    frameAt (storeAt heap a g) b = frameAt heap b := by
  cases a with
  | zero => simp [storeAt]
  | succ a =>
      cases b with
      | zero => simp [frameAt]
      | succ b =>
          have : a ≠ b := fun h => hab (by rw [h])
          simp [frameAt, storeAt, List.getElem?_set, this]

theorem frameAt_append_new (heap : List F) (f : F) :
    frameAt (heap ++ [f]) (heap.length + 1) = some f := by
  simp [frameAt]

end HeapLemmas

/-! ## Lemmas on generator frames -/

namespace generator

section FrameLemmas

variable {σ T : Type} (body : σ → BodyStep σ T)

theorem done_of_suspended {heap : List (Frame σ T)} {h : coroutine_handle} {f : Frame σ T}
    (hf : frameAt heap h.handle_ = some f) (hs : f.status = .suspended) :
    h.done (builtins body) heap = .ok false heap := by
  have h0 := frameAt_ne_zero hf
  simp [coroutine_handle.done, coroutine_handle.is_suspended, h0, builtins, hf, hs]

theorem done_of_final {heap : List (Frame σ T)} {h : coroutine_handle} {f : Frame σ T}
    (hf : frameAt heap h.handle_ = some f) (hs : f.status = .final) :
    h.done (builtins body) heap = .ok true heap := by
  have h0 := frameAt_ne_zero hf
  simp [coroutine_handle.done, coroutine_handle.is_suspended, h0, builtins, hf, hs]

theorem resume_yield {heap : List (Frame σ T)} {h : coroutine_handle} {f : Frame σ T}
    {v : T} {next : σ}
    (hf : frameAt heap h.handle_ = some f) (hs : f.status = .suspended)
    (hb : body f.locals = .yield v next) :
    h.resume (builtins body) heap =
      .ok () (storeAt heap h.handle_
        { status := .suspended, promise := { value_ := some v }, locals := next,
          resumes := f.resumes + 1 }) := by
  have h0 := frameAt_ne_zero hf
  rw [coroutine_handle.resume, done_of_suspended body hf hs]
  simp [coroutine_handle.is_suspended, h0, Outcome.bind, builtins, hf, hs, Frame.run, hb,
    promise_type.yield_value]

theorem resume_ret {heap : List (Frame σ T)} {h : coroutine_handle} {f : Frame σ T}
    (hf : frameAt heap h.handle_ = some f) (hs : f.status = .suspended)
    (hb : body f.locals = .ret) :
    h.resume (builtins body) heap =
      .ok () (storeAt heap h.handle_
        { status := .final, promise := f.promise, locals := f.locals,
          resumes := f.resumes + 1 }) := by
  have h0 := frameAt_ne_zero hf
  rw [coroutine_handle.resume, done_of_suspended body hf hs]
  simp [coroutine_handle.is_suspended, h0, Outcome.bind, builtins, hf, hs, Frame.run, hb,
    promise_type.return_void, promise_type.final_suspend, suspend_always.await_ready]

theorem resume_raise {heap : List (Frame σ T)} {h : coroutine_handle} {f : Frame σ T}
    (hf : frameAt heap h.handle_ = some f) (hs : f.status = .suspended)
    (hb : body f.locals = .raise) :
    h.resume (builtins body) heap =
      .threw (storeAt heap h.handle_
        { status := .final, promise := f.promise, locals := f.locals,
          resumes := f.resumes + 1 }) := by
  have h0 := frameAt_ne_zero hf
  rw [coroutine_handle.resume, done_of_suspended body hf hs]
  simp [coroutine_handle.is_suspended, h0, Outcome.bind, builtins, hf, hs, Frame.run, hb,
    promise_type.unhandled_exception]

theorem deref_of_value {heap : List (Frame σ T)} {h : coroutine_handle} {f : Frame σ T} {v : T}
    (hf : frameAt heap h.handle_ = some f) (hs : f.status ≠ .destroyed)
    (hv : f.promise.value_ = some v) :
    iterator.operator_deref ⟨h⟩ heap = .ok v heap := by
  unfold iterator.operator_deref
  simp only [hf]
  cases hst : f.status <;> simp_all

/-- The loop of a range-for, entered on a frame parked at a `co_yield` with
value `v`, whose body goes on to yield `vs` and return: the loop body sees
`v :: vs`, the frame is resumed once per element of `vs` and once more, and
ends parked at its final suspension point. -/
theorem rangeLoop_produces (vs : List T) :
    ∀ (fuel : Nat) (h : coroutine_handle) (acc : List T) (heap : List (Frame σ T))
      (f : Frame σ T) (v : T),
      frameAt heap h.handle_ = some f → f.status = .suspended →
      f.promise.value_ = some v → Produces body f.locals vs false →
      vs.length + 2 ≤ fuel →
      ∃ heap1 f1, rangeLoop (builtins body) fuel ⟨h⟩ acc heap = .ok (acc ++ v :: vs, ⟨h⟩) heap1
        ∧ frameAt heap1 h.handle_ = some f1 ∧ f1.status = .final
        ∧ f1.resumes = f.resumes + vs.length + 1
        ∧ ∀ b, b ≠ h.handle_ → frameAt heap1 b = frameAt heap b := by
  induction vs with
  | nil =>
      intro fuel h acc heap f v hf hs hv hp hfuel
      obtain ⟨fuel, rfl⟩ : ∃ k, fuel = k + 2 := ⟨fuel - 2, by simp at hfuel; omega⟩
      have hb : body f.locals = .ret := by
        simp only [Produces] at hp
        cases hbody : body f.locals <;> simp_all
      let f1 : Frame σ T :=
        { status := .final, promise := f.promise, locals := f.locals, resumes := f.resumes + 1 }
      have hf1 : frameAt (storeAt heap h.handle_ f1) h.handle_ = some f1 :=
        frameAt_storeAt_same hf
      refine ⟨storeAt heap h.handle_ f1, f1, ?_, hf1, rfl, by simp [f1], ?_⟩
      · have hd := done_of_final body hf1 rfl
        simp only [f1] at hd
        simp only [rangeLoop, iterator.operator_eq, iterator.operator_inc,
          done_of_suspended body hf hs, Outcome.bind, deref_of_value hf (by simp [hs]) hv,
          resume_ret body hf hs hb]
        simp [hd]
      · intro b hb'
        exact frameAt_storeAt_other (Ne.symm hb')
  | cons w ws ih =>
      intro fuel h acc heap f v hf hs hv hp hfuel
      obtain ⟨fuel, rfl⟩ : ∃ k, fuel = k + 1 := ⟨fuel - 1, by simp at hfuel; omega⟩
      obtain ⟨next, hb, hnext⟩ : ∃ next, body f.locals = .yield w next
          ∧ Produces body next ws false := by
        simp only [Produces] at hp
        cases hbody : body f.locals with
        | yield w1 next => rw [hbody] at hp; exact ⟨next, by rw [hp.1], hp.2⟩
        | ret => rw [hbody] at hp; exact hp.elim
        | raise => rw [hbody] at hp; exact hp.elim
      let f1 : Frame σ T :=
        { status := .suspended, promise := { value_ := some w }, locals := next,
          resumes := f.resumes + 1 }
      have hf1 : frameAt (storeAt heap h.handle_ f1) h.handle_ = some f1 :=
        frameAt_storeAt_same hf
      obtain ⟨heap2, f2, hrun, hf2, hs2, hr2, hother⟩ :=
        ih fuel h (acc ++ [v]) (storeAt heap h.handle_ f1) f1 w hf1 rfl rfl hnext
          (by simp at hfuel ⊢; omega)
      refine ⟨heap2, f2, ?_, hf2, hs2, ?_, ?_⟩
      · simp only [rangeLoop, iterator.operator_eq, iterator.operator_inc,
          done_of_suspended body hf hs, Outcome.bind, deref_of_value hf (by simp [hs]) hv,
          resume_yield body hf hs hb]
        simpa using hrun
      · simp [hr2, f1]; omega
      · intro b hb'
        rw [hother b hb', frameAt_storeAt_other (Ne.symm hb')]

/-- A whole range-for over a generator whose frame is parked (not at its final
suspension point) and whose body goes on to yield `vs` and return. -/
theorem rangeFor_produces (vs : List T) (fuel : Nat) (g : generator)
    (heap : List (Frame σ T)) (f : Frame σ T)
    (hf : frameAt heap g.coro_.handle_ = some f) (hs : f.status = .suspended)
    (hp : Produces body f.locals vs false) (hfuel : vs.length + 1 ≤ fuel) :
    ∃ heap1 f1, rangeFor (builtins body) fuel g heap = .ok (vs, ⟨g.coro_⟩) heap1
      ∧ frameAt heap1 g.coro_.handle_ = some f1 ∧ f1.status = .final
      ∧ f1.resumes = f.resumes + vs.length + 1
      ∧ ∀ b, b ≠ g.coro_.handle_ → frameAt heap1 b = frameAt heap b := by
  have h0 := frameAt_ne_zero hf
  cases vs with
  | nil =>
      obtain ⟨fuel, rfl⟩ : ∃ k, fuel = k + 1 := ⟨fuel - 1, by simp at hfuel; omega⟩
      have hb : body f.locals = .ret := by
        simp only [Produces] at hp
        cases hbody : body f.locals <;> simp_all
      let f1 : Frame σ T :=
        { status := .final, promise := f.promise, locals := f.locals, resumes := f.resumes + 1 }
      have hf1 : frameAt (storeAt heap g.coro_.handle_ f1) g.coro_.handle_ = some f1 :=
        frameAt_storeAt_same hf
      refine ⟨storeAt heap g.coro_.handle_ f1, f1, ?_, hf1, rfl, by simp [f1], ?_⟩
      · have hd := done_of_final body hf1 rfl
        simp only [f1] at hd
        simp only [rangeFor, begin, coroutine_handle.toBool, done_of_suspended body hf hs,
          Outcome.bind, resume_ret body hf hs hb, rangeLoop, iterator.operator_eq]
        simp [h0, hd]
      · intro b hb'
        exact frameAt_storeAt_other (Ne.symm hb')
  | cons w ws =>
      obtain ⟨next, hb, hnext⟩ : ∃ next, body f.locals = .yield w next
          ∧ Produces body next ws false := by
        simp only [Produces] at hp
        cases hbody : body f.locals with
        | yield w1 next => rw [hbody] at hp; exact ⟨next, by rw [hp.1], hp.2⟩
        | ret => rw [hbody] at hp; exact hp.elim
        | raise => rw [hbody] at hp; exact hp.elim
      let f1 : Frame σ T :=
        { status := .suspended, promise := { value_ := some w }, locals := next,
          resumes := f.resumes + 1 }
      have hf1 : frameAt (storeAt heap g.coro_.handle_ f1) g.coro_.handle_ = some f1 :=
        frameAt_storeAt_same hf
      obtain ⟨heap2, f2, hrun, hf2, hs2, hr2, hother⟩ :=
        rangeLoop_produces body ws fuel g.coro_ [] (storeAt heap g.coro_.handle_ f1) f1 w
          hf1 rfl rfl hnext (by simp at hfuel ⊢; omega)
      refine ⟨heap2, f2, ?_, hf2, hs2, ?_, ?_⟩
      · simp only [rangeFor, begin, coroutine_handle.toBool, done_of_suspended body hf hs,
          Outcome.bind, resume_yield body hf hs hb]
        simpa [h0] using hrun
      · simp [hr2, f1]; omega
      · intro b hb'
        rw [hother b hb', frameAt_storeAt_other (Ne.symm hb')]

end FrameLemmas

end generator

/-! ## The producer `iota` -/

/-- The value `iota` yields next from loop variable `i`: `0` on entry, `i + 1`
after a `co_yield i`. -/
theorem iota_produces (n : Int) (k : Nat) :
    ∀ (oi : Option Int),
      (match oi with
        | none => (0 : Int)
        | some i => i + 1) + k = n →
      generator.Produces iota { n := n, i := oi }
        ((List.range k).map fun (j : Nat) =>
          (match oi with
            | none => (0 : Int)
            | some i => i + 1) + (j : Int)) false := by
  induction k with
  | zero =>
      intro oi h
      cases oi with
      | none =>
          simp only [Nat.cast_zero, add_zero] at h
          simp [generator.Produces, iota, ← h]
      | some i =>
          simp only [Nat.cast_zero, add_zero] at h
          simp [generator.Produces, iota, ← h]
  | succ k ih =>
      intro oi h
      rw [List.range_succ_eq_map, List.map_cons, List.map_map]
      cases oi with
      | none =>
          have hlt : (0 : Int) < n := by push_cast at h; omega
          have hrest := ih (some 0) (by push_cast at h ⊢; omega)
          simp only [generator.Produces, iota, hlt, if_true]
          refine ⟨by simp, ?_⟩
          have hfun : ((fun j : Nat => (0 : Int) + (j : Int)) ∘ Nat.succ)
              = fun j : Nat => (0 : Int) + 1 + (j : Int) := by
            funext j; simp; omega
          rw [hfun]
          exact hrest
      | some i =>
          have hlt : i + 1 < n := by push_cast at h; omega
          have hrest := ih (some (i + 1)) (by push_cast at h ⊢; omega)
          simp only [generator.Produces, iota, hlt, if_true]
          refine ⟨by simp, ?_⟩
          have hfun : ((fun j : Nat => i + 1 + (j : Int)) ∘ Nat.succ)
              = fun j : Nat => i + 1 + 1 + (j : Int) := by
            funext j; simp; omega
          rw [hfun]
          exact hrest

theorem create_parks {σ T : Type} (body : σ → generator.BodyStep σ T) (args : σ)
    (heap : List (generator.Frame σ T)) :
    generator.create body args heap =
      .ok ⟨⟨heap.length + 1⟩⟩
        (heap ++ [{ status := .suspended, promise := { value_ := none }, locals := args,
                    resumes := 0 }]) := by
  simp [generator.create, generator.promise_type.initial_suspend, suspend_always.await_ready,
    generator.promise_type.get_return_object]

/-! ## The claims -/

/-- C1: for every bound `0 ≤ n` of type `int`, the range-for over `iota(n)`
(`begin()`, then test against `end()`, dereference, pre-increment, repeatedly)
hands the loop body exactly `0, 1, ..., n-1` in ascending order, and the
iterator it stops at compares equal to the end sentinel. -/
theorem iota_range_for_ascending (n : Int) (h0 : 0 ≤ n) (_hmax : n ≤ 2147483647)
    (heap : List (generator.Frame IotaLocals Int)) (fuel : Nat) (hfuel : n.toNat + 1 ≤ fuel) :
    ∃ g heap1 b heap2,
      iotaCall n heap = .ok g heap1
      ∧ generator.rangeFor (generator.builtins iota) fuel g heap1
          = .ok ((List.range n.toNat).map fun (j : Nat) => (j : Int), b) heap2
      ∧ b.operator_eq (generator.builtins iota) heap2 = .ok true heap2 := by
  have hp := iota_produces n n.toNat none (by simp [Int.toNat_of_nonneg h0])
  simp only [zero_add] at hp
  have hc := create_parks iota { n := n, i := none } heap
  obtain ⟨heap2, f2, hrun, hf2, hs2, -, -⟩ :=
    generator.rangeFor_produces iota ((List.range n.toNat).map fun (j : Nat) => (j : Int)) fuel
      ⟨⟨heap.length + 1⟩⟩ _
      { status := .suspended, promise := { value_ := none }, locals := { n := n, i := none },
        resumes := 0 }
      (frameAt_append_new heap _) rfl hp (by simpa using hfuel)
  exact ⟨_, _, _, heap2, hc, hrun, generator.done_of_final iota hf2 hs2⟩

/-- Witness of C1 at `n = 10` on the empty heap: the loop body sees `0..9`. -/
theorem iota_range_for_ascending_witness :
    ∃ g heap1 b heap2,
      iotaCall 10 [] = .ok g heap1
      ∧ generator.rangeFor (generator.builtins iota) 11 g heap1
          = .ok ([0, 1, 2, 3, 4, 5, 6, 7, 8, 9], b) heap2
      ∧ b.operator_eq (generator.builtins iota) heap2 = .ok true heap2 :=
  iota_range_for_ascending 10 (by decide) (by decide) [] 11 (by decide)

/-- Counterexample to C2 as stated, on `iota(3)`: after the first `begin()` the
frame has been resumed once and the iterator reads `0`; a second `begin()`,
with no iterator advanced in between, resumes the frame again (two resumes) and
its iterator reads `1`. -/
theorem begin_again_resumes_iota3 :
    iotaCall 3 [] = .ok ⟨⟨1⟩⟩
        [{ status := .suspended, promise := { value_ := none }, locals := { n := 3, i := none },
           resumes := 0 }]
    ∧ generator.begin (generator.builtins iota) ⟨⟨1⟩⟩
        [{ status := .suspended, promise := { value_ := none }, locals := { n := 3, i := none },
           resumes := 0 }]
      = .ok ⟨⟨1⟩⟩
        [{ status := .suspended, promise := { value_ := some 0 },
           locals := { n := 3, i := some 0 }, resumes := 1 }]
    ∧ generator.iterator.operator_deref ⟨⟨1⟩⟩
        ([{ status := .suspended, promise := { value_ := some 0 },
            locals := { n := 3, i := some 0 }, resumes := 1 }] : IotaHeap)
      = .ok 0
        [{ status := .suspended, promise := { value_ := some 0 },
           locals := { n := 3, i := some 0 }, resumes := 1 }]
    ∧ generator.begin (generator.builtins iota) ⟨⟨1⟩⟩
        [{ status := .suspended, promise := { value_ := some 0 },
           locals := { n := 3, i := some 0 }, resumes := 1 }]
      = .ok ⟨⟨1⟩⟩
        [{ status := .suspended, promise := { value_ := some 1 },
           locals := { n := 3, i := some 1 }, resumes := 2 }]
    ∧ generator.iterator.operator_deref ⟨⟨1⟩⟩
        ([{ status := .suspended, promise := { value_ := some 1 },
            locals := { n := 3, i := some 1 }, resumes := 2 }] : IotaHeap)
      = .ok 1
        [{ status := .suspended, promise := { value_ := some 1 },
           locals := { n := 3, i := some 1 }, resumes := 2 }] := by
  refine ⟨rfl, rfl, rfl, rfl, rfl⟩

theorem generator.begin_of_suspended {σ T : Type} (body : σ → generator.BodyStep σ T)
    {heap : List (generator.Frame σ T)} {g : generator} {f : generator.Frame σ T}
    (hf : frameAt heap g.coro_.handle_ = some f) (hs : f.status = .suspended) :
    g.begin (generator.builtins body) heap
      = (g.coro_.resume (generator.builtins body) heap).bind fun _ heap2 =>
          .ok { coro_ := g.coro_ } heap2 := by
  have h0 := frameAt_ne_zero hf
  simp [generator.begin, coroutine_handle.toBool, h0, generator.done_of_suspended body hf hs,
    Outcome.bind]

/-- C2 (amended): on a generator whose frame has been started (it holds a
yielded value) and is not finished, `begin()` resumes the frame once more: the
resume count goes up by one, and the returned iterator reads the value the body
yields next, or compares equal to `end()` when the body returns instead. -/
theorem begin_again_resumes_once_more {σ T : Type} (body : σ → generator.BodyStep σ T)
    (g : generator) (heap : List (generator.Frame σ T)) (f : generator.Frame σ T) (v0 : T)
    (hf : frameAt heap g.coro_.handle_ = some f) (hs : f.status = .suspended)
    (_hv : f.promise.value_ = some v0) :
    ∃ heap1 f1,
      (g.begin (generator.builtins body) heap).heap? = some heap1
      ∧ frameAt heap1 g.coro_.handle_ = some f1
      ∧ f1.resumes = f.resumes + 1
      ∧ (∀ v next, body f.locals = .yield v next →
          g.begin (generator.builtins body) heap = .ok ⟨g.coro_⟩ heap1
          ∧ generator.iterator.operator_deref ⟨g.coro_⟩ heap1 = .ok v heap1)
      ∧ (body f.locals = .ret →
          g.begin (generator.builtins body) heap = .ok ⟨g.coro_⟩ heap1
          ∧ generator.iterator.operator_eq (generator.builtins body) ⟨g.coro_⟩ heap1
              = .ok true heap1) := by
  rw [generator.begin_of_suspended body hf hs]
  cases hb : body f.locals with
  | yield v next =>
      rw [generator.resume_yield body hf hs hb]
      refine ⟨_, _, rfl, frameAt_storeAt_same hf, rfl, ?_, ?_⟩
      · intro v1 next1 h1
        cases h1
        exact ⟨rfl, generator.deref_of_value (frameAt_storeAt_same hf) (by simp) rfl⟩
      · intro h1
        cases h1
  | ret =>
      rw [generator.resume_ret body hf hs hb]
      refine ⟨_, _, rfl, frameAt_storeAt_same hf, rfl, ?_, ?_⟩
      · intro v1 next1 h1
        cases h1
      · intro _
        exact ⟨rfl, generator.done_of_final body (frameAt_storeAt_same hf) rfl⟩
  | raise =>
      rw [generator.resume_raise body hf hs hb]
      refine ⟨_, _, rfl, frameAt_storeAt_same hf, rfl, ?_, ?_⟩
      · intro v1 next1 h1
        cases h1
      · intro h1
        cases h1

/-- Witness of the amended C2 on `iota(3)` after its first `begin()`. -/
theorem begin_again_resumes_once_more_witness :
    ∃ heap1 f1,
      (generator.begin (generator.builtins iota) ⟨⟨1⟩⟩
          ([{ status := .suspended, promise := { value_ := some 0 },
              locals := { n := 3, i := some 0 }, resumes := 1 }] : IotaHeap)).heap? = some heap1
      ∧ frameAt heap1 1 = some f1
      ∧ f1.resumes = 1 + 1
      ∧ (∀ v next, iota { n := 3, i := some 0 } = .yield v next →
          generator.begin (generator.builtins iota) ⟨⟨1⟩⟩
            ([{ status := .suspended, promise := { value_ := some 0 },
                locals := { n := 3, i := some 0 }, resumes := 1 }] : IotaHeap)
            = .ok ⟨⟨1⟩⟩ heap1
          ∧ generator.iterator.operator_deref ⟨⟨1⟩⟩ heap1 = .ok v heap1)
      ∧ (iota { n := 3, i := some 0 } = .ret →
          generator.begin (generator.builtins iota) ⟨⟨1⟩⟩
            ([{ status := .suspended, promise := { value_ := some 0 },
                locals := { n := 3, i := some 0 }, resumes := 1 }] : IotaHeap)
            = .ok ⟨⟨1⟩⟩ heap1
          ∧ generator.iterator.operator_eq (generator.builtins iota) ⟨⟨1⟩⟩ heap1
              = .ok true heap1) :=
  begin_again_resumes_once_more iota ⟨⟨1⟩⟩
    [{ status := .suspended, promise := { value_ := some 0 },
       locals := { n := 3, i := some 0 }, resumes := 1 }]
    { status := .suspended, promise := { value_ := some 0 },
      locals := { n := 3, i := some 0 }, resumes := 1 } 0 rfl rfl rfl

/-- C3: a generator freshly made from a producer that yields the `N` values
`vs` and then returns is resumed exactly `N + 1` times by one full range-for
(`begin()`, then pre-increments until the iterator equals `end()`), which hands
the loop body exactly `vs`. -/
theorem range_for_resumes_count {σ T : Type} (body : σ → generator.BodyStep σ T) (args : σ)
    (vs : List T) (heap : List (generator.Frame σ T)) (fuel : Nat)
    (hp : generator.Produces body args vs false) (hfuel : vs.length + 1 ≤ fuel) :
    ∃ g heap1 b heap2 f,
      generator.create body args heap = .ok g heap1
      ∧ (frameAt heap1 g.coro_.handle_).map (fun f0 => f0.resumes) = some 0
      ∧ generator.rangeFor (generator.builtins body) fuel g heap1 = .ok (vs, b) heap2
      ∧ b.operator_eq (generator.builtins body) heap2 = .ok true heap2
      ∧ frameAt heap2 g.coro_.handle_ = some f
      ∧ f.resumes = vs.length + 1 := by
  obtain ⟨heap2, f2, hrun, hf2, hs2, hr2, -⟩ :=
    generator.rangeFor_produces body vs fuel ⟨⟨heap.length + 1⟩⟩ _
      { status := .suspended, promise := { value_ := none }, locals := args, resumes := 0 }
      (frameAt_append_new heap _) rfl hp hfuel
  refine ⟨_, _, _, heap2, f2, create_parks body args heap, ?_, hrun,
    generator.done_of_final body hf2 hs2, hf2, by simpa using hr2⟩
  simp [frameAt_append_new]

/-- Witness of C3 on `iota(3)`: three values, four resumes. -/
theorem range_for_resumes_count_witness :
    ∃ g heap1 b heap2 f,
      generator.create iota { n := 3, i := none } [] = .ok g heap1
      ∧ (frameAt heap1 g.coro_.handle_).map (fun f0 => f0.resumes) = some 0
      ∧ generator.rangeFor (generator.builtins iota) 4 g heap1 = .ok ([0, 1, 2], b) heap2
      ∧ b.operator_eq (generator.builtins iota) heap2 = .ok true heap2
      ∧ frameAt heap2 g.coro_.handle_ = some f
      ∧ f.resumes = 3 + 1 :=
  range_for_resumes_count iota { n := 3, i := none } [0, 1, 2] [] 4
    (by simp [generator.Produces, iota]) (by decide)

/-- C4 (the code at the failing input): `iota(2)` is iterated to its end by one
range-for; on the finished frame `begin()` resumes nothing and returns the
iterator with a null handle, and comparing that iterator with `end()` calls
`done()` on the null handle, which fails `assert(is_suspended())`; so does the
second range-for over the same generator. -/
theorem second_range_for_asserts_iota2 :
    generator.rangeFor (generator.builtins iota) 3 ⟨⟨1⟩⟩
        [{ status := .suspended, promise := { value_ := none }, locals := { n := 2, i := none },
           resumes := 0 }]
      = .ok ([0, 1], ⟨⟨1⟩⟩)
        [{ status := .final, promise := { value_ := some 1 },
           locals := { n := 2, i := some 1 }, resumes := 3 }]
    ∧ generator.begin (generator.builtins iota) ⟨⟨1⟩⟩
        [{ status := .final, promise := { value_ := some 1 },
           locals := { n := 2, i := some 1 }, resumes := 3 }]
      = .ok ⟨coroutine_handle.null⟩
        [{ status := .final, promise := { value_ := some 1 },
           locals := { n := 2, i := some 1 }, resumes := 3 }]
    ∧ generator.iterator.operator_eq (generator.builtins iota) ⟨coroutine_handle.null⟩
        [{ status := .final, promise := { value_ := some 1 },
           locals := { n := 2, i := some 1 }, resumes := 3 }]
      = .assertFail
    ∧ generator.rangeFor (generator.builtins iota) 3 ⟨⟨1⟩⟩
        [{ status := .final, promise := { value_ := some 1 },
           locals := { n := 2, i := some 1 }, resumes := 3 }]
      = .assertFail := by
  refine ⟨rfl, rfl, rfl, rfl⟩

/-- C5 (the code at the failing input): `auto a = iota(1); auto b = iota(2);
a = std::move(b);` and then both destructors.  The move assignment overwrites
`a.coro_` without destroying the frame `a` owned, so after every generator
object is gone the first frame is still parked, never destroyed; the second
frame is destroyed once. -/
theorem move_assign_leaks_frame :
    generator.runOps iota
        [.call { n := 1, i := none }, .call { n := 2, i := none }, .move_assign 0 1,
         .dtor 1, .dtor 0]
        { objs := [], heap := [] }
      = .ok ()
        { objs := [none, none],
          heap :=
            [{ status := .suspended, promise := { value_ := none },
               locals := { n := 1, i := none }, resumes := 0 },
             { status := .destroyed, promise := { value_ := none },
               locals := { n := 2, i := none }, resumes := 0 }] } := by
  rfl

theorem generator.obj?_eq_some {σ T : Type} {w : generator.World σ T} {i : Nat} {g : generator}
    (h : w.obj? i = some g) : w.objs[i]? = some (some g) := by
  unfold generator.World.obj? at h
  split at h
  · next g1 heq => cases h; exact heq
  · cases h

/-- C6: when `g` (object `src`) owns frame `f`, move-constructing a new
generator from it, or move-assigning it into an empty generator `dst`, leaves
`g` with a null handle and the destination with the handle to `f`; the heap,
and so the state of `f`, is untouched, and a range-for over the destination
behaves exactly as a range-for over `g` would have. -/
theorem move_transfers_ownership {σ T : Type} (body : σ → generator.BodyStep σ T)
    (w : generator.World σ T) (src : Nat) (g : generator) (f : generator.Frame σ T)
    (hobj : w.obj? src = some g) (_hf : frameAt w.heap g.coro_.handle_ = some f) :
    (∃ w1, generator.applyOp body w (.move_ctor src) = .ok () w1
      ∧ w1.obj? src = some ⟨coroutine_handle.null⟩
      ∧ w1.obj? w.objs.length = some g
      ∧ w1.heap = w.heap
      ∧ ∀ fuel g2, w1.obj? w.objs.length = some g2 →
          generator.rangeFor (generator.builtins body) fuel g2 w1.heap
            = generator.rangeFor (generator.builtins body) fuel g w.heap)
    ∧ ∀ dst, dst ≠ src → w.obj? dst = some ⟨coroutine_handle.null⟩ →
        ∃ w2, generator.applyOp body w (.move_assign dst src) = .ok () w2
          ∧ w2.obj? src = some ⟨coroutine_handle.null⟩
          ∧ w2.obj? dst = some g
          ∧ w2.heap = w.heap
          ∧ ∀ fuel g2, w2.obj? dst = some g2 →
              generator.rangeFor (generator.builtins body) fuel g2 w2.heap
                = generator.rangeFor (generator.builtins body) fuel g w.heap := by
  have hsrc := generator.obj?_eq_some hobj
  have hlt : src < w.objs.length := by
    by_contra hge
    rw [List.getElem?_eq_none (Nat.le_of_not_lt hge)] at hsrc
    exact Option.noConfusion hsrc
  constructor
  · have h1 : generator.World.obj?
        { w with objs := (w.objs.set src (some ⟨coroutine_handle.null⟩)) ++ [some g] } src
          = some ⟨coroutine_handle.null⟩ := by
      simp [generator.World.obj?, List.getElem?_append_left, hlt, List.getElem?_set]
    have h2 : generator.World.obj?
        { w with objs := (w.objs.set src (some ⟨coroutine_handle.null⟩)) ++ [some g] }
          w.objs.length = some g := by
      simp [generator.World.obj?, List.getElem?_append_right]
    refine ⟨_, ?_, h1, h2, rfl, ?_⟩
    · simp [generator.applyOp, hobj, generator.move_ctor]
    · intro fuel g2 hg2
      rw [h2] at hg2
      cases hg2
      rfl
  · intro dst hne hdst
    have hd := generator.obj?_eq_some hdst
    have hdlt : dst < w.objs.length := by
      by_contra hge
      rw [List.getElem?_eq_none (Nat.le_of_not_lt hge)] at hd
      exact Option.noConfusion hd
    have h1 : generator.World.obj?
        { w with objs := (w.objs.set src (some ⟨coroutine_handle.null⟩)).set dst (some g) } src
          = some ⟨coroutine_handle.null⟩ := by
      simp [generator.World.obj?, List.getElem?_set, hlt, hne]
    have h2 : generator.World.obj?
        { w with objs := (w.objs.set src (some ⟨coroutine_handle.null⟩)).set dst (some g) } dst
          = some g := by
      simp [generator.World.obj?, List.getElem?_set, hdlt]
    refine ⟨_, ?_, h1, h2, rfl, ?_⟩
    · simp [generator.applyOp, hobj, hdst, generator.move_assign, hne]
    · intro fuel g2 hg2
      rw [h2] at hg2
      cases hg2
      rfl

/-- Witness of C6: `auto g = iota(2); generator<int> e;` then a move out of `g`. -/
theorem move_transfers_ownership_witness :
    (∃ w1, generator.applyOp iota
          { objs := [some ⟨⟨1⟩⟩, some ⟨coroutine_handle.null⟩],
            heap := [{ status := .suspended, promise := { value_ := none },
                       locals := { n := 2, i := none }, resumes := 0 }] }
          (.move_ctor 0) = .ok () w1
      ∧ w1.obj? 0 = some ⟨coroutine_handle.null⟩
      ∧ w1.obj? 2 = some ⟨⟨1⟩⟩
      ∧ w1.heap = [{ status := .suspended, promise := { value_ := none },
                     locals := { n := 2, i := none }, resumes := 0 }]
      ∧ ∀ fuel g2, w1.obj? 2 = some g2 →
          generator.rangeFor (generator.builtins iota) fuel g2 w1.heap
            = generator.rangeFor (generator.builtins iota) fuel ⟨⟨1⟩⟩
                [{ status := .suspended, promise := { value_ := none },
                   locals := { n := 2, i := none }, resumes := 0 }])
    ∧ ∀ dst, dst ≠ 0 →
        generator.World.obj?
          ({ objs := [some ⟨⟨1⟩⟩, some ⟨coroutine_handle.null⟩],
             heap := [{ status := .suspended, promise := { value_ := none },
                        locals := { n := 2, i := none }, resumes := 0 }] } :
            generator.World IotaLocals Int) dst = some ⟨coroutine_handle.null⟩ →
        ∃ w2, generator.applyOp iota
            { objs := [some ⟨⟨1⟩⟩, some ⟨coroutine_handle.null⟩],
              heap := [{ status := .suspended, promise := { value_ := none },
                         locals := { n := 2, i := none }, resumes := 0 }] }
            (.move_assign dst 0) = .ok () w2
          ∧ w2.obj? 0 = some ⟨coroutine_handle.null⟩
          ∧ w2.obj? dst = some ⟨⟨1⟩⟩
          ∧ w2.heap = [{ status := .suspended, promise := { value_ := none },
                         locals := { n := 2, i := none }, resumes := 0 }]
          ∧ ∀ fuel g2, w2.obj? dst = some g2 →
              generator.rangeFor (generator.builtins iota) fuel g2 w2.heap
                = generator.rangeFor (generator.builtins iota) fuel ⟨⟨1⟩⟩
                    [{ status := .suspended, promise := { value_ := none },
                       locals := { n := 2, i := none }, resumes := 0 }] :=
  move_transfers_ownership iota
    { objs := [some ⟨⟨1⟩⟩, some ⟨coroutine_handle.null⟩],
      heap := [{ status := .suspended, promise := { value_ := none },
                 locals := { n := 2, i := none }, resumes := 0 }] }
    0 ⟨⟨1⟩⟩
    { status := .suspended, promise := { value_ := none },
      locals := { n := 2, i := none }, resumes := 0 } rfl rfl

/-! ## Tasks -/

section TaskLemmas

open task

theorem frameAt_append_cons0 {F : Type} (l : List F) (x : F) (xs : List F) :
    frameAt (l ++ x :: xs) (l.length + 1) = some x := by
  simp only [frameAt]
  rw [List.getElem?_append_right (Nat.le_refl _)]
  simp

theorem frameAt_append_cons1 {F : Type} (l : List F) (x y : F) (ys : List F) :
    frameAt (l ++ x :: y :: ys) (l.length + 2) = some y := by
  simp only [frameAt]
  rw [List.getElem?_append_right (Nat.le_succ _)]
  simp

theorem storeAt_append_cons0 {F : Type} (l : List F) (x z : F) (xs : List F) :
    storeAt (l ++ x :: xs) (l.length + 1) z = l ++ z :: xs := by
  simp [storeAt, List.set_append]

theorem storeAt_append_cons1 {F : Type} (l : List F) (x y z : F) (ys : List F) :
    storeAt (l ++ x :: y :: ys) (l.length + 2) z = l ++ x :: z :: ys := by
  simp [storeAt, List.set_append]

theorem frameAt_append_left {F : Type} {l : List F} {a : Nat} {f : F} (x : List F)
    (h : frameAt l a = some f) : frameAt (l ++ x) a = some f := by
  cases a with
  | zero => simp [frameAt] at h
  | succ a =>
      simp only [frameAt] at h ⊢
      have hlt : a < l.length := by
        by_contra hge
        rw [List.getElem?_eq_none (Nat.le_of_not_lt hge)] at h
        exact Option.noConfusion h
      rw [List.getElem?_append_left hlt]
      exact h

theorem builtins_coro_done (fuel : Nat) : (builtins fuel).coro_done = task.coro_done := by
  cases fuel <;> rfl

theorem builtins_coro_destroy (fuel : Nat) :
    (builtins fuel).coro_destroy = task.coro_destroy := by
  cases fuel <;> rfl

theorem await_suspend_eq (B : Builtins Heap) {heap : Heap} {a : Nat} {f : Frame}
    {p : promise_type} (c : coroutine_handle)
    (hf : frameAt heap.frames a = some f) (hs : f.status = .suspended)
    (hp : f.promise = .task p) :
    awaiter.await_suspend B ⟨⟨a⟩⟩ c heap
      = coroutine_handle.resume B ⟨a⟩
          { frames := storeAt heap.frames a { f with promise := .task { continuation := c } }
            trace := heap.trace ++ [.await_resume a c.handle_] } := by
  simp [awaiter.await_suspend, hf, hs, hp]

theorem resume_eq (fuel : Nat) {heap : Heap} {a : Nat} {f : Frame}
    (hf : frameAt heap.frames a = some f) (hs : f.status = .suspended) :
    coroutine_handle.resume (builtins (fuel + 1)) ⟨a⟩ heap
      = run (builtins fuel) (create (builtins fuel) (fuel + 1)) a
          { frames := storeAt heap.frames a
              { f with status := .running, resumes := f.resumes + 1 }
            trace := heap.trace } := by
  have h0 := frameAt_ne_zero hf
  simp [coroutine_handle.resume, coroutine_handle.done, coroutine_handle.is_suspended, h0,
    builtins_coro_done, task.coro_done, hf, hs, Outcome.bind, builtins, task.coro_resume,
    Heap.modify]

theorem run_await_eq (B : Builtins Heap) (k : Nat) {heap : Heap} {a : Nat} {f : Frame}
    {ch rest : List Body}
    (hf : frameAt heap.frames a = some f) (haw : f.awaited = none)
    (hr : f.rest = .awaits ch :: rest) :
    run B (create B (k + 1)) a heap
      = awaiter.await_suspend B ⟨⟨heap.frames.length + 1⟩⟩ ⟨a⟩
          { frames := storeAt
              (heap.frames ++
                [{ status := .suspended,
                   promise := .task { continuation := coroutine_handle.null },
                   rest := ch, awaited := none, resumes := 0 }]) a
              { f with status := .suspended, rest := rest,
                       awaited := some ⟨⟨heap.frames.length + 1⟩⟩ }
            trace := heap.trace } := by
  simp [run, hf, haw, hr, Outcome.bind, create, promise_type.init,
    promise_type.initial_suspend, suspend_always.await_ready, promise_type.get_return_object,
    operator_co_await, Heap.modify, frameAt_append_left _ hf]

theorem frameAt_isSome_storeAt {F : Type} (heap : List F) (a b : Nat) (g : F) :
    (frameAt (storeAt heap b g) a).isSome = (frameAt heap a).isSome := by
  cases a with
  | zero => simp [frameAt]
  | succ a =>
      cases b with
      | zero => simp [storeAt]
      | succ b =>
          simp only [frameAt, storeAt]
          by_cases hlt : a < heap.length
          · rw [List.getElem?_eq_getElem (by simpa using hlt), List.getElem?_eq_getElem hlt]
            simp
          · rw [List.getElem?_eq_none (by simpa using Nat.le_of_not_lt hlt),
              List.getElem?_eq_none (Nat.le_of_not_lt hlt)]

theorem frameAt_storeAt_self {F : Type} {heap : List F} {a : Nat} (g : F)
    (h : (frameAt heap a).isSome = true) : frameAt (storeAt heap a g) a = some g := by
  obtain ⟨f, hf⟩ := Option.isSome_iff_exists.mp h
  exact frameAt_storeAt_same hf

theorem storeAt_storeAt_same {F : Type} (heap : List F) (a : Nat) (g g1 : F) :
    storeAt (storeAt heap a g) a g1 = storeAt heap a g1 := by
  cases a with
  | zero => rfl
  | succ a => simp [storeAt]

theorem run_finish_eq (fuel : Nat) (mk : List Body → Heap → Outcome Heap task) {heap : Heap}
    {a : Nat} {f ft : Frame} {p : promise_type} {t : task}
    (hf : frameAt heap.frames a = some f) (haw : f.awaited = some t) (hr : f.rest = [])
    (hp : f.promise = .task p) (hta : t.coro_.handle_ ≠ a)
    (hft : frameAt heap.frames t.coro_.handle_ = some ft) (hfts : ft.status = .final) :
    run (builtins fuel) mk a heap
      = p.continuation.resume (builtins fuel)
          { frames := storeAt
              (storeAt heap.frames t.coro_.handle_ { ft with status := .destroyed }) a
              { f with status := .final, awaited := none }
            trace := heap.trace ++ [.final_resume a p.continuation.handle_] } := by
  have h0 := frameAt_ne_zero hft
  obtain ⟨st, pr, rs, aw, rn⟩ := f
  obtain ⟨st1, pr1, rs1, aw1, rn1⟩ := ft
  simp only at haw hr hp hfts
  subst haw hr hp hfts
  have hs : (frameAt heap.frames a).isSome = true := by simp [hf]
  simp [run, hf, task.dtor, coroutine_handle.toBool, coroutine_handle.destroy,
    coroutine_handle.is_suspended, h0, builtins_coro_destroy, task.coro_destroy, hft,
    Heap.modify, Outcome.bind, finish, promise_type.return_void,
    promise_type.final_suspend, final_awaiter.await_ready, final_awaiter.await_suspend,
    frameAt_storeAt_other hta, frameAt_storeAt_self, frameAt_isSome_storeAt, hs,
    storeAt_storeAt_same]

theorem run_leaf_eq (fuel : Nat) (mk : List Body → Heap → Outcome Heap task) {heap : Heap}
    {a : Nat} {f : Frame} {p : promise_type}
    (hf : frameAt heap.frames a = some f) (haw : f.awaited = none) (hr : f.rest = [])
    (hp : f.promise = .task p) :
    run (builtins fuel) mk a heap
      = p.continuation.resume (builtins fuel)
          { frames := storeAt heap.frames a { f with status := .final }
            trace := heap.trace ++ [.final_resume a p.continuation.handle_] } := by
  obtain ⟨st, pr, rs, aw, rn⟩ := f
  simp only at haw hr hp
  subst haw hr hp
  have hs : (frameAt heap.frames a).isSome = true := by simp [hf]
  simp [run, hf, Heap.modify, Outcome.bind, finish, promise_type.return_void,
    promise_type.final_suspend, final_awaiter.await_ready, final_awaiter.await_suspend,
    frameAt_storeAt_self, frameAt_isSome_storeAt, hs, storeAt_storeAt_same]

theorem run_finish_generator_eq (fuel : Nat) (mk : List Body → Heap → Outcome Heap task)
    {heap : Heap} {a : Nat} {f ft : Frame} {t : task}
    (hf : frameAt heap.frames a = some f) (haw : f.awaited = some t) (hr : f.rest = [])
    (hp : f.promise = .generator) (hta : t.coro_.handle_ ≠ a)
    (hft : frameAt heap.frames t.coro_.handle_ = some ft) (hfts : ft.status = .final) :
    run (builtins fuel) mk a heap
      = .ok ()
          { frames := storeAt
              (storeAt heap.frames t.coro_.handle_ { ft with status := .destroyed }) a
              { f with status := .final, awaited := none }
            trace := heap.trace } := by
  have h0 := frameAt_ne_zero hft
  obtain ⟨st, pr, rs, aw, rn⟩ := f
  obtain ⟨st1, pr1, rs1, aw1, rn1⟩ := ft
  simp only at haw hr hp hfts
  subst haw hr hp hfts
  have hs : (frameAt heap.frames a).isSome = true := by simp [hf]
  simp [run, hf, task.dtor, coroutine_handle.toBool, coroutine_handle.destroy,
    coroutine_handle.is_suspended, h0, builtins_coro_destroy, task.coro_destroy, hft,
    Heap.modify, Outcome.bind, finish,
    frameAt_storeAt_other hta, frameAt_storeAt_self, frameAt_isSome_storeAt, hs,
    storeAt_storeAt_same]

/-- A task of a chain, awaited with continuation `c`: the task at the top of the
heap, whose body is `chainBody n`, runs its whole subtree of `n` nested tasks
and ends in the call `c.resume()` made by its final awaiter. -/
theorem chain_unwinds (n : Nat) :
    ∀ (fuel : Nat) (l : List Frame) (tr : List Event) (c : coroutine_handle),
      awaiter.await_suspend (builtins (fuel + 2 * n + 1)) ⟨⟨l.length + 1⟩⟩ c
          { frames := l ++ [{ status := .suspended,
                              promise := .task { continuation := coroutine_handle.null },
                              rest := chainBody n, awaited := none, resumes := 0 }]
            trace := tr }
        = c.resume (builtins fuel)
            { frames := l ++
                ({ status := .final, promise := .task { continuation := c }, rest := [],
                   awaited := none, resumes := topResumes n } :: descendants (l.length + 1) n)
              trace := tr ++ chainEvents (l.length + 1) c.handle_ n } := by
  induction n with
  | zero =>
      intro fuel l tr c
      rw [await_suspend_eq _ c (frameAt_append_cons0 l _ _) rfl rfl]
      simp only [storeAt_append_cons0]
      rw [resume_eq _ (frameAt_append_cons0 l _ _) rfl]
      simp only [storeAt_append_cons0]
      rw [run_leaf_eq _ _ (frameAt_append_cons0 l _ _) rfl rfl rfl]
      simp [storeAt_append_cons0, topResumes, descendants, chainEvents, chainBody]
  | succ n ih =>
      intro fuel l tr c
      have hfuel : fuel + 2 * (n + 1) + 1 = (fuel + 1 + 2 * n + 1) + 1 := by omega
      rw [hfuel]
      have ih1 := ih (fuel + 1)
        (l ++ [{ status := .suspended, promise := .task { continuation := c },
                 rest := [], awaited := some ⟨⟨l.length + 2⟩⟩, resumes := 1 }])
        (tr ++ [.await_resume (l.length + 1) c.handle_]) ⟨l.length + 1⟩
      simp only [List.length_append, List.length_singleton, List.append_assoc,
        List.singleton_append] at ih1
      rw [await_suspend_eq _ c (frameAt_append_cons0 l _ _) rfl rfl]
      simp only [storeAt_append_cons0]
      rw [resume_eq _ (frameAt_append_cons0 l _ _) rfl]
      simp only [storeAt_append_cons0]
      rw [run_await_eq _ _ (frameAt_append_cons0 l _ _) rfl rfl]
      simp only [List.length_append, List.length_singleton, List.append_assoc,
        List.singleton_append, storeAt_append_cons0]
      rw [ih1]
      rw [resume_eq _ (frameAt_append_cons0 l _ _) rfl]
      simp only [storeAt_append_cons0]
      rw [run_finish_eq _ _ (frameAt_append_cons0 l _ _) rfl rfl rfl (by simp)
        (frameAt_append_cons1 l _ _ _) rfl]
      simp [storeAt_append_cons0, storeAt_append_cons1, topResumes, descendants, chainEvents]

theorem begin_eq (fuel : Nat) {heap : Heap} {a : Nat} {f : Frame}
    (hf : frameAt heap.frames a = some f) (hs : f.status = .suspended) :
    generator.begin (builtins fuel) ⟨⟨a⟩⟩ heap
      = (coroutine_handle.resume (builtins fuel) ⟨a⟩ heap).bind fun _ heap2 =>
          .ok ⟨⟨a⟩⟩ heap2 := by
  have h0 := frameAt_ne_zero hf
  simp [generator.begin, coroutine_handle.toBool, coroutine_handle.done,
    coroutine_handle.is_suspended, h0, builtins_coro_done, task.coro_done, hf, hs, Outcome.bind]

/-- A generator coroutine that awaits a chain of `n + 1` tasks, started by
`begin()` on any heap: the run returns normally, the log gains the resumes of
the chain in order, and every task frame ends destroyed. -/
theorem chain_from_root (n fuel : Nat) (l : List Frame) (tr : List Event) :
    generator.begin (builtins (fuel + 2 * n + 3))
        (callGenerator (chainBody (n + 1)) ⟨l, tr⟩).1
        (callGenerator (chainBody (n + 1)) ⟨l, tr⟩).2
      = .ok ⟨⟨l.length + 1⟩⟩
          { frames := l ++
              ({ status := .final, promise := .generator, rest := [], awaited := none,
                 resumes := 2 } :: descendants (l.length + 1) (n + 1))
            trace := tr ++ chainEvents (l.length + 2) (l.length + 1) n } := by
  have hfuel : fuel + 2 * n + 3 = (fuel + 1 + 2 * n + 1) + 1 := by omega
  have hu := chain_unwinds n (fuel + 1)
    (l ++ [{ status := .suspended, promise := .generator,
             rest := [], awaited := some ⟨⟨l.length + 2⟩⟩, resumes := 1 }])
    tr ⟨l.length + 1⟩
  simp only [List.length_append, List.length_singleton, List.append_assoc,
    List.singleton_append] at hu
  simp only [callGenerator]
  rw [hfuel, begin_eq _ (frameAt_append_cons0 l _ _) rfl,
    resume_eq _ (frameAt_append_cons0 l _ _) rfl]
  simp only [storeAt_append_cons0]
  rw [run_await_eq _ _ (frameAt_append_cons0 l _ _) rfl rfl]
  simp only [List.length_append, List.length_singleton, List.append_assoc,
    List.singleton_append, storeAt_append_cons0]
  rw [hu, resume_eq _ (frameAt_append_cons0 l _ _) rfl]
  simp only [storeAt_append_cons0]
  rw [run_finish_generator_eq _ _ (frameAt_append_cons0 l _ _) rfl rfl rfl (by simp)
    (frameAt_append_cons1 l _ _ _) rfl]
  simp [storeAt_append_cons0, storeAt_append_cons1, descendants, Outcome.bind]

/-- C7: `root` (a generator coroutine, started by `begin()`) awaits task `A`,
`A` awaits `B`, `B` awaits `C`, and `C` awaits nothing, on any heap; with `L`
frames already there, the frames are at addresses `L+1` (`root`), `L+2` (`A`),
`L+3` (`B`), `L+4` (`C`).  Each task is started by the `await_suspend` of its
awaiter.  When the body of `C` completes its final awaiter resumes `B`; `B`
then completes and its final awaiter resumes `A`; `A` completes and its final
awaiter resumes `root`.  Every stored continuation is resumed exactly once, `B`
before `A`; every task frame is resumed twice (once to start it, once as a
continuation) except `C` (once); and the whole run returns normally, with any
nesting bound of at least 7. -/
theorem chain_completion_resumes_in_reverse (l : List Frame) (tr : List Event) (k : Nat) :
    generator.begin (builtins (k + 7))
        (callGenerator [.awaits [.awaits [.awaits []]]] ⟨l, tr⟩).1
        (callGenerator [.awaits [.awaits [.awaits []]]] ⟨l, tr⟩).2
      = .ok ⟨⟨l.length + 1⟩⟩
          { frames := l ++
              [{ status := .final, promise := .generator, rest := [], awaited := none,
                 resumes := 2 },
               { status := .destroyed, promise := .task ⟨⟨l.length + 1⟩⟩, rest := [],
                 awaited := none, resumes := 2 },
               { status := .destroyed, promise := .task ⟨⟨l.length + 2⟩⟩, rest := [],
                 awaited := none, resumes := 2 },
               { status := .destroyed, promise := .task ⟨⟨l.length + 3⟩⟩, rest := [],
                 awaited := none, resumes := 1 }]
            trace := tr ++
              [.await_resume (l.length + 2) (l.length + 1),
               .await_resume (l.length + 3) (l.length + 2),
               .await_resume (l.length + 4) (l.length + 3),
               .final_resume (l.length + 4) (l.length + 3),
               .final_resume (l.length + 3) (l.length + 2),
               .final_resume (l.length + 2) (l.length + 1)] } := by
  have h := chain_from_root 2 k l tr
  simpa [chainBody, descendants, topResumes, chainEvents] using h

/-- Counterexample to C8 as stated: the promise of a task just created on the
empty heap stores the null handle (`operator bool` is `false`), whereas every
noop handle is non-null; and if that frame is resumed without having been
awaited, its final awaiter calls `resume()` on the null handle, which fails
`assert(is_suspended())` instead of doing nothing. -/
theorem new_task_continuation_is_null :
    task.create (builtins 1) 1 [] ⟨[], []⟩
      = .ok ⟨⟨1⟩⟩
          { frames := [{ status := .suspended, promise := .task ⟨⟨0⟩⟩, rest := [],
                         awaited := none, resumes := 0 }]
            trace := [] }
    ∧ coroutine_handle.toBool ⟨0⟩ = false
    ∧ (∀ n : noop_coroutine_handle, n.toBool = true)
    ∧ coroutine_handle.resume (builtins 1) ⟨1⟩
        { frames := [{ status := .suspended, promise := .task ⟨⟨0⟩⟩, rest := [],
                       awaited := none, resumes := 0 }]
          trace := [] }
      = .assertFail := by
  refine ⟨rfl, rfl, fun _ => rfl, rfl⟩

/-- C8 (amended): the promise of every newly created task stores the null
handle as its continuation.  `awaiter::await_suspend(k)` replaces it by the
awaiting handle `k` before it resumes the frame, and when the body (here one
that awaits nothing) reaches the final suspension point the final awaiter calls
`resume()` on exactly that stored `k`; with `k` null that call fails its
assertion. -/
theorem new_task_continuation_null_until_awaited (l : List Frame) (tr : List Event)
    (body : List Body) (B : Builtins Heap) (fuel n : Nat) (k : coroutine_handle) :
    task.create B (fuel + 1) body ⟨l, tr⟩
      = .ok ⟨⟨l.length + 1⟩⟩
          { frames := l ++ [{ status := .suspended,
                              promise := .task { continuation := coroutine_handle.null },
                              rest := body, awaited := none, resumes := 0 }]
            trace := tr }
    ∧ awaiter.await_suspend (builtins (n + 1)) (operator_co_await ⟨⟨l.length + 1⟩⟩) k
        { frames := l ++ [{ status := .suspended,
                            promise := .task { continuation := coroutine_handle.null },
                            rest := [], awaited := none, resumes := 0 }]
          trace := tr }
      = k.resume (builtins n)
          { frames := l ++ [{ status := .final, promise := .task { continuation := k },
                              rest := [], awaited := none, resumes := 1 }]
            trace := tr ++ [.await_resume (l.length + 1) k.handle_,
                            .final_resume (l.length + 1) k.handle_] }
    ∧ coroutine_handle.resume (builtins n) coroutine_handle.null
          { frames := l ++ [{ status := .final,
                              promise := .task { continuation := coroutine_handle.null },
                              rest := [], awaited := none, resumes := 1 }]
            trace := tr ++ [.await_resume (l.length + 1) 0, .final_resume (l.length + 1) 0] }
      = .assertFail := by
  refine ⟨?_, ?_, rfl⟩
  · simp [task.create, promise_type.init, promise_type.initial_suspend,
      suspend_always.await_ready, promise_type.get_return_object]
  · simp [awaiter.await_suspend, operator_co_await, frameAt, storeAt, builtins,
      task.coro_resume, task.coro_done, coroutine_handle.resume, coroutine_handle.done,
      coroutine_handle.is_suspended, Outcome.bind, run, finish, Heap.modify,
      final_awaiter.await_suspend, final_awaiter.await_ready, promise_type.final_suspend,
      promise_type.return_void]

end TaskLemmas

/-! ## Failure of the producer, and the assertions of the handle -/

theorem generator.advance_of_suspended {σ T : Type} (body : σ → generator.BodyStep σ T)
    {heap : List (generator.Frame σ T)} {g : generator} {f : generator.Frame σ T}
    (it : Option generator.iterator) (hit : it = none ∨ it = some ⟨g.coro_⟩)
    (hf : frameAt heap g.coro_.handle_ = some f) (hs : f.status = .suspended) :
    generator.advance (generator.builtins body) g it heap
      = (g.coro_.resume (generator.builtins body) heap).bind fun _ heap2 =>
          .ok { coro_ := g.coro_ } heap2 := by
  rcases hit with rfl | rfl
  · exact generator.begin_of_suspended body hf hs
  · simp [generator.advance, generator.iterator.operator_inc,
      generator.done_of_suspended body hf hs, Outcome.bind]

theorem generator.consume_take {σ T : Type} (body : σ → generator.BodyStep σ T)
    (g : generator) (fails : Bool) (m : Nat) :
    ∀ (vs : List T) (it : Option generator.iterator) (acc : List T)
      (heap : List (generator.Frame σ T)) (f : generator.Frame σ T),
      (it = none ∨ it = some ⟨g.coro_⟩) →
      frameAt heap g.coro_.handle_ = some f → f.status = .suspended →
      generator.Produces body f.locals vs fails → m ≤ vs.length →
      ∃ it1 heap1 f1,
        generator.consume (generator.builtins body) g m it acc heap
          = .ok (it1, acc ++ vs.take m) heap1
        ∧ (it1 = none ∨ it1 = some ⟨g.coro_⟩)
        ∧ frameAt heap1 g.coro_.handle_ = some f1 ∧ f1.status = .suspended
        ∧ generator.Produces body f1.locals (vs.drop m) fails := by
  induction m with
  | zero =>
      intro vs it acc heap f hit hf hs hp _
      exact ⟨it, heap, f, by simp [generator.consume], hit, hf, hs, by simpa using hp⟩
  | succ m ih =>
      intro vs it acc heap f hit hf hs hp hm
      cases vs with
      | nil => simp at hm
      | cons v ws =>
          obtain ⟨next, hb, hnext⟩ : ∃ next, body f.locals = .yield v next
              ∧ generator.Produces body next ws fails := by
            simp only [generator.Produces] at hp
            cases hbody : body f.locals with
            | yield w1 next => rw [hbody] at hp; exact ⟨next, by rw [hp.1], hp.2⟩
            | ret => rw [hbody] at hp; exact hp.elim
            | raise => rw [hbody] at hp; exact hp.elim
          have hf1 := frameAt_storeAt_same
            (g := ({ status := .suspended, promise := { value_ := some v }, locals := next,
                     resumes := f.resumes + 1 } : generator.Frame σ T)) hf
          obtain ⟨it1, heap1, f1, hrun, hit1, hf1', hs1, hp1⟩ :=
            ih ws (some ⟨g.coro_⟩) (acc ++ [v]) _ _ (Or.inr rfl) hf1 rfl hnext
              (by simpa using hm)
          refine ⟨it1, heap1, f1, ?_, hit1, hf1', hs1, by simpa using hp1⟩
          simp only [generator.consume, generator.advance_of_suspended body it hit hf hs,
            generator.resume_yield body hf hs hb, Outcome.bind,
            generator.deref_of_value hf1 (by simp) rfl]
          simpa using hrun

/-- C9: for a generator made from a producer body that yields the `k` values
`vs` and then lets an exception escape, the first `k` advances of the consumer
(`begin()` first, then pre-increments) return normally and the values read
after them are `vs` in order; the `(k+1)`-th advance ends by that exception
reaching its caller; and afterwards the frame is finished: `empty()`, that is
`done()`, returns `true`. -/
theorem failure_surfaces_at_next_advance {σ T : Type} (body : σ → generator.BodyStep σ T)
    (args : σ) (vs : List T) (heap : List (generator.Frame σ T))
    (hp : generator.Produces body args vs true) :
    ∃ g heap0,
      generator.create body args heap = .ok g heap0
      ∧ (∀ m, m ≤ vs.length → ∃ it heap1,
          generator.consume (generator.builtins body) g m none [] heap0
            = .ok (it, vs.take m) heap1)
      ∧ ∃ it heapk heap1,
          generator.consume (generator.builtins body) g vs.length none [] heap0
            = .ok (it, vs) heapk
          ∧ generator.advance (generator.builtins body) g it heapk = .threw heap1
          ∧ g.empty (generator.builtins body) heap1 = .ok true heap1 := by
  have hf0 : frameAt
      (heap ++ [({ status := .suspended, promise := { value_ := none }, locals := args,
                   resumes := 0 } : generator.Frame σ T)])
      (generator.mk ⟨heap.length + 1⟩).coro_.handle_ = some _ := frameAt_append_new heap _
  refine ⟨_, _, create_parks body args heap, ?_, ?_⟩
  · intro m hm
    obtain ⟨it1, heap1, f1, hrun, -, -, -, -⟩ :=
      generator.consume_take body ⟨⟨heap.length + 1⟩⟩ true m vs none [] _ _ (Or.inl rfl)
        hf0 rfl hp hm
    exact ⟨it1, heap1, by simpa using hrun⟩
  · obtain ⟨it1, heap1, f1, hrun, hit1, hf1, hs1, hp1⟩ :=
      generator.consume_take body ⟨⟨heap.length + 1⟩⟩ true vs.length vs none [] _ _
        (Or.inl rfl) hf0 rfl hp (Nat.le_refl _)
    have hb : body f1.locals = .raise := by
      simp only [List.drop_length, generator.Produces] at hp1
      cases hbody : body f1.locals <;> simp_all
    refine ⟨it1, heap1,
      storeAt heap1 (heap.length + 1)
        { status := .final, promise := f1.promise, locals := f1.locals,
          resumes := f1.resumes + 1 },
      by simpa using hrun, ?_, ?_⟩
    · rw [generator.advance_of_suspended body it1 hit1 hf1 hs1,
        generator.resume_raise body hf1 hs1 hb]
      rfl
    · exact generator.done_of_final body (frameAt_storeAt_same hf1) rfl

/-- Witness of C9: the body yields `10`, `20` and then throws. -/
theorem failure_surfaces_at_next_advance_witness :
    ∃ g heap0,
      generator.create scripted (([10, 20] : List Nat), true) [] = .ok g heap0
      ∧ (∀ m, m ≤ 2 → ∃ it heap1,
          generator.consume (generator.builtins scripted) g m none [] heap0
            = .ok (it, ([10, 20] : List Nat).take m) heap1)
      ∧ ∃ it heapk heap1,
          generator.consume (generator.builtins scripted) g 2 none [] heap0
            = .ok (it, [10, 20]) heapk
          ∧ generator.advance (generator.builtins scripted) g it heapk = .threw heap1
          ∧ g.empty (generator.builtins scripted) heap1 = .ok true heap1 :=
  failure_surfaces_at_next_advance scripted (([10, 20] : List Nat), true) [10, 20] []
    (by simp [generator.Produces, scripted])

/-- Counterexample to C10 as stated: on a handle to a frame that is running,
`is_suspended()` is `true` (the handle is not null), so neither `resume()` nor
`destroy()` fails an assertion; both go on into the builtin, where the
behaviour is undefined. -/
theorem running_frame_not_asserted :
    coroutine_handle.is_suspended ⟨1⟩ = true
    ∧ coroutine_handle.resume (generator.builtins iota) ⟨1⟩
        [{ status := .running, promise := { value_ := some 0 },
           locals := { n := 3, i := some 0 }, resumes := 1 }]
      = .ub
    ∧ coroutine_handle.destroy (generator.builtins iota) ⟨1⟩
        [{ status := .running, promise := { value_ := some 0 },
           locals := { n := 3, i := some 0 }, resumes := 1 }]
      = .ub
    ∧ (Outcome.ub : Outcome IotaHeap Unit) ≠ .assertFail := by
  refine ⟨rfl, rfl, rfl, by decide⟩

/-- C10 (amended): with assertions enabled, `resume()`, `destroy()` and `done()`
fail an assertion whenever the handle is null, and `resume()` fails an assertion
whenever the referenced frame is finished (parked at its final suspension
point). -/
theorem resume_destroy_assert {σ T : Type} (body : σ → generator.BodyStep σ T)
    (h0 h : coroutine_handle) (heap : List (generator.Frame σ T)) (f : generator.Frame σ T)
    (hnull : h0.handle_ = 0)
    (hf : frameAt heap h.handle_ = some f) (hs : f.status = .final) :
    h0.resume (generator.builtins body) heap = .assertFail
    ∧ h0.destroy (generator.builtins body) heap = .assertFail
    ∧ h0.done (generator.builtins body) heap = .assertFail
    ∧ h.resume (generator.builtins body) heap = .assertFail := by
  refine ⟨?_, ?_, ?_, ?_⟩
  · simp [coroutine_handle.resume, coroutine_handle.is_suspended, hnull]
  · simp [coroutine_handle.destroy, coroutine_handle.is_suspended, hnull]
  · simp [coroutine_handle.done, coroutine_handle.is_suspended, hnull]
  · have hne := frameAt_ne_zero hf
    rw [coroutine_handle.resume, generator.done_of_final body hf hs]
    simp [coroutine_handle.is_suspended, hne, Outcome.bind]

/-- Witness of the amended C10: the null handle, and the handle to the finished
frame of `iota(2)`. -/
theorem resume_destroy_assert_witness :
    coroutine_handle.resume (generator.builtins iota) coroutine_handle.null
        [{ status := .final, promise := { value_ := some 1 },
           locals := { n := 2, i := some 1 }, resumes := 3 }]
      = .assertFail
    ∧ coroutine_handle.destroy (generator.builtins iota) coroutine_handle.null
        [{ status := .final, promise := { value_ := some 1 },
           locals := { n := 2, i := some 1 }, resumes := 3 }]
      = .assertFail
    ∧ coroutine_handle.done (generator.builtins iota) coroutine_handle.null
        [{ status := .final, promise := { value_ := some 1 },
           locals := { n := 2, i := some 1 }, resumes := 3 }]
      = .assertFail
    ∧ coroutine_handle.resume (generator.builtins iota) ⟨1⟩
        [{ status := .final, promise := { value_ := some 1 },
           locals := { n := 2, i := some 1 }, resumes := 3 }]
      = .assertFail :=
  resume_destroy_assert iota coroutine_handle.null ⟨1⟩
    [{ status := .final, promise := { value_ := some 1 },
       locals := { n := 2, i := some 1 }, resumes := 3 }]
    { status := .final, promise := { value_ := some 1 },
      locals := { n := 2, i := some 1 }, resumes := 3 } rfl rfl rfl

/-! ## Laziness, advancing, and the sentinel -/

theorem generator.resume_run {σ T : Type} (body : σ → generator.BodyStep σ T)
    {heap : List (generator.Frame σ T)} {h : coroutine_handle} {f : generator.Frame σ T}
    (hf : frameAt heap h.handle_ = some f) (hs : f.status = .suspended) :
    h.resume (generator.builtins body) heap
      = (if (generator.Frame.run body
              { f with status := .running, resumes := f.resumes + 1 }).2
         then .threw (storeAt heap h.handle_ (generator.Frame.run body
              { f with status := .running, resumes := f.resumes + 1 }).1)
         else .ok () (storeAt heap h.handle_ (generator.Frame.run body
              { f with status := .running, resumes := f.resumes + 1 }).1)) := by
  have h0 := frameAt_ne_zero hf
  rw [coroutine_handle.resume, generator.done_of_suspended body hf hs]
  simp [coroutine_handle.is_suspended, h0, Outcome.bind, generator.builtins, hf, hs]

/-- C11: calling a producer runs none of its body: `initial_suspend()` returns a
`suspend_always`, whose `await_ready()` is `false`, so the new frame is parked
with its locals as passed, no value in its promise and no resume made.  The
first step of the body runs in the first `begin()`.  Likewise a new task frame
keeps its whole body, logs nothing and has not been resumed; its body starts in
the `await_suspend` of its awaiter. -/
theorem creation_runs_no_body {σ T : Type} (body : σ → generator.BodyStep σ T) (args : σ)
    (heap : List (generator.Frame σ T)) (l : List task.Frame) (tr : List task.Event)
    (tb : List task.Body) (B : Builtins task.Heap) (fuel n : Nat) (c : coroutine_handle) :
    (generator.promise_type.initial_suspend
        ({ value_ := none } : generator.promise_type T)).await_ready = false
    ∧ generator.create body args heap
        = .ok ⟨⟨heap.length + 1⟩⟩
            (heap ++ [{ status := .suspended, promise := { value_ := none }, locals := args,
                        resumes := 0 }])
    ∧ generator.begin (generator.builtins body) ⟨⟨heap.length + 1⟩⟩
          (heap ++ [{ status := .suspended, promise := { value_ := none }, locals := args,
                      resumes := 0 }])
        = (if (generator.Frame.run body
                { status := .running, promise := { value_ := none }, locals := args,
                  resumes := 1 }).2
           then .threw (heap ++ [(generator.Frame.run body
                { status := .running, promise := { value_ := none }, locals := args,
                  resumes := 1 }).1])
           else .ok ⟨⟨heap.length + 1⟩⟩ (heap ++ [(generator.Frame.run body
                { status := .running, promise := { value_ := none }, locals := args,
                  resumes := 1 }).1]))
    ∧ (task.promise_type.initial_suspend task.promise_type.init).await_ready = false
    ∧ task.create B (fuel + 1) tb ⟨l, tr⟩
        = .ok ⟨⟨l.length + 1⟩⟩
            { frames := l ++ [{ status := .suspended,
                                promise := .task { continuation := coroutine_handle.null },
                                rest := tb, awaited := none, resumes := 0 }]
              trace := tr }
    ∧ task.awaiter.await_suspend (task.builtins (n + 1))
          (task.operator_co_await ⟨⟨l.length + 1⟩⟩) c
          { frames := l ++ [{ status := .suspended,
                              promise := .task { continuation := coroutine_handle.null },
                              rest := tb, awaited := none, resumes := 0 }]
            trace := tr }
        = task.run (task.builtins n) (task.create (task.builtins n) (n + 1)) (l.length + 1)
            { frames := l ++ [{ status := .running, promise := .task { continuation := c },
                                rest := tb, awaited := none, resumes := 1 }]
              trace := tr ++ [.await_resume (l.length + 1) c.handle_] } := by
  refine ⟨rfl, create_parks body args heap, ?_, rfl, ?_, ?_⟩
  · have hf : frameAt
        (heap ++ [({ status := .suspended, promise := { value_ := none }, locals := args,
                     resumes := 0 } : generator.Frame σ T)])
        (generator.mk ⟨heap.length + 1⟩).coro_.handle_ = some _ := frameAt_append_new heap _
    rw [generator.begin_of_suspended body hf rfl, generator.resume_run body hf rfl]
    simp only [storeAt_append_cons0, Nat.zero_add]
    split <;> rfl
  · simp [task.create, task.promise_type.init, task.promise_type.initial_suspend,
      suspend_always.await_ready, task.promise_type.get_return_object]
  · simp only [task.operator_co_await]
    rw [await_suspend_eq _ c (frameAt_append_cons0 l _ _) rfl rfl]
    simp only [storeAt_append_cons0]
    rw [resume_eq _ (frameAt_append_cons0 l _ _) rfl]
    simp only [storeAt_append_cons0]

/-! ## The range-for under the contract of dereference -/

namespace generator

section CheckedLemmas

variable {σ T : Type} (body : σ → BodyStep σ T)

theorem checked_deref_of_value {heap : List (Frame σ T)} {h : coroutine_handle} {f : Frame σ T}
    {v : T} (hf : frameAt heap h.handle_ = some f) (hs : f.status = .suspended)
    (hv : f.promise.value_ = some v) :
    iterator.checked_deref ⟨h⟩ heap = .ok v heap := by
  unfold iterator.checked_deref
  simp only [hf, hs]
  exact deref_of_value hf (by simp [hs]) hv

/-- The checked loop of a range-for, entered on a frame parked at a `co_yield` with
value `v`, whose body goes on to yield `vs` and return: the loop body sees
`v :: vs`, the frame is resumed once per element of `vs` and once more, and
ends parked at its final suspension point. -/
theorem rangeLoopChecked_produces (vs : List T) :
    ∀ (fuel : Nat) (h : coroutine_handle) (acc : List T) (heap : List (Frame σ T))
      (f : Frame σ T) (v : T),
      frameAt heap h.handle_ = some f → f.status = .suspended →
      f.promise.value_ = some v → Produces body f.locals vs false →
      vs.length + 2 ≤ fuel →
      ∃ heap1 f1, rangeLoopChecked (builtins body) fuel ⟨h⟩ acc heap = .ok (acc ++ v :: vs, ⟨h⟩) heap1
        ∧ frameAt heap1 h.handle_ = some f1 ∧ f1.status = .final
        ∧ f1.resumes = f.resumes + vs.length + 1
        ∧ ∀ b, b ≠ h.handle_ → frameAt heap1 b = frameAt heap b := by
  induction vs with
  | nil =>
      intro fuel h acc heap f v hf hs hv hp hfuel
      obtain ⟨fuel, rfl⟩ : ∃ k, fuel = k + 2 := ⟨fuel - 2, by simp at hfuel; omega⟩
      have hb : body f.locals = .ret := by
        simp only [Produces] at hp
        cases hbody : body f.locals <;> simp_all
      let f1 : Frame σ T :=
        { status := .final, promise := f.promise, locals := f.locals, resumes := f.resumes + 1 }
      have hf1 : frameAt (storeAt heap h.handle_ f1) h.handle_ = some f1 :=
        frameAt_storeAt_same hf
      refine ⟨storeAt heap h.handle_ f1, f1, ?_, hf1, rfl, by simp [f1], ?_⟩
      · have hd := done_of_final body hf1 rfl
        simp only [f1] at hd
        simp only [rangeLoopChecked, iterator.operator_eq, iterator.operator_inc,
          done_of_suspended body hf hs, Outcome.bind, checked_deref_of_value hf hs hv,
          resume_ret body hf hs hb]
        simp [hd]
      · intro b hb'
        exact frameAt_storeAt_other (Ne.symm hb')
  | cons w ws ih =>
      intro fuel h acc heap f v hf hs hv hp hfuel
      obtain ⟨fuel, rfl⟩ : ∃ k, fuel = k + 1 := ⟨fuel - 1, by simp at hfuel; omega⟩
      obtain ⟨next, hb, hnext⟩ : ∃ next, body f.locals = .yield w next
          ∧ Produces body next ws false := by
        simp only [Produces] at hp
        cases hbody : body f.locals with
        | yield w1 next => rw [hbody] at hp; exact ⟨next, by rw [hp.1], hp.2⟩
        | ret => rw [hbody] at hp; exact hp.elim
        | raise => rw [hbody] at hp; exact hp.elim
      let f1 : Frame σ T :=
        { status := .suspended, promise := { value_ := some w }, locals := next,
          resumes := f.resumes + 1 }
      have hf1 : frameAt (storeAt heap h.handle_ f1) h.handle_ = some f1 :=
        frameAt_storeAt_same hf
      obtain ⟨heap2, f2, hrun, hf2, hs2, hr2, hother⟩ :=
        ih fuel h (acc ++ [v]) (storeAt heap h.handle_ f1) f1 w hf1 rfl rfl hnext
          (by simp at hfuel ⊢; omega)
      refine ⟨heap2, f2, ?_, hf2, hs2, ?_, ?_⟩
      · simp only [rangeLoopChecked, iterator.operator_eq, iterator.operator_inc,
          done_of_suspended body hf hs, Outcome.bind, checked_deref_of_value hf hs hv,
          resume_yield body hf hs hb]
        simpa using hrun
      · simp [hr2, f1]; omega
      · intro b hb'
        rw [hother b hb', frameAt_storeAt_other (Ne.symm hb')]

/-- A whole checked range-for over a generator whose frame is parked (not at its final
suspension point) and whose body goes on to yield `vs` and return. -/
theorem rangeForChecked_produces (vs : List T) (fuel : Nat) (g : generator)
    (heap : List (Frame σ T)) (f : Frame σ T)
    (hf : frameAt heap g.coro_.handle_ = some f) (hs : f.status = .suspended)
    (hp : Produces body f.locals vs false) (hfuel : vs.length + 1 ≤ fuel) :
    ∃ heap1 f1, rangeForChecked (builtins body) fuel g heap = .ok (vs, ⟨g.coro_⟩) heap1
      ∧ frameAt heap1 g.coro_.handle_ = some f1 ∧ f1.status = .final
      ∧ f1.resumes = f.resumes + vs.length + 1
      ∧ ∀ b, b ≠ g.coro_.handle_ → frameAt heap1 b = frameAt heap b := by
  have h0 := frameAt_ne_zero hf
  cases vs with
  | nil =>
      obtain ⟨fuel, rfl⟩ : ∃ k, fuel = k + 1 := ⟨fuel - 1, by simp at hfuel; omega⟩
      have hb : body f.locals = .ret := by
        simp only [Produces] at hp
        cases hbody : body f.locals <;> simp_all
      let f1 : Frame σ T :=
        { status := .final, promise := f.promise, locals := f.locals, resumes := f.resumes + 1 }
      have hf1 : frameAt (storeAt heap g.coro_.handle_ f1) g.coro_.handle_ = some f1 :=
        frameAt_storeAt_same hf
      refine ⟨storeAt heap g.coro_.handle_ f1, f1, ?_, hf1, rfl, by simp [f1], ?_⟩
      · have hd := done_of_final body hf1 rfl
        simp only [f1] at hd
        simp only [rangeForChecked, begin, coroutine_handle.toBool, done_of_suspended body hf hs,
          Outcome.bind, resume_ret body hf hs hb, rangeLoopChecked, iterator.operator_eq]
        simp [h0, hd]
      · intro b hb'
        exact frameAt_storeAt_other (Ne.symm hb')
  | cons w ws =>
      obtain ⟨next, hb, hnext⟩ : ∃ next, body f.locals = .yield w next
          ∧ Produces body next ws false := by
        simp only [Produces] at hp
        cases hbody : body f.locals with
        | yield w1 next => rw [hbody] at hp; exact ⟨next, by rw [hp.1], hp.2⟩
        | ret => rw [hbody] at hp; exact hp.elim
        | raise => rw [hbody] at hp; exact hp.elim
      let f1 : Frame σ T :=
        { status := .suspended, promise := { value_ := some w }, locals := next,
          resumes := f.resumes + 1 }
      have hf1 : frameAt (storeAt heap g.coro_.handle_ f1) g.coro_.handle_ = some f1 :=
        frameAt_storeAt_same hf
      obtain ⟨heap2, f2, hrun, hf2, hs2, hr2, hother⟩ :=
        rangeLoopChecked_produces body ws fuel g.coro_ [] (storeAt heap g.coro_.handle_ f1) f1 w
          hf1 rfl rfl hnext (by simp at hfuel ⊢; omega)
      refine ⟨heap2, f2, ?_, hf2, hs2, ?_, ?_⟩
      · simp only [rangeForChecked, begin, coroutine_handle.toBool, done_of_suspended body hf hs,
          Outcome.bind, resume_yield body hf hs hb]
        simpa [h0] using hrun
      · simp [hr2, f1]; omega
      · intro b hb'
        rw [hother b hb', frameAt_storeAt_other (Ne.symm hb')]

end CheckedLemmas

end generator

/-! ## The claims on advancing, the sentinel, and handles -/

theorem generator.operator_inc_of_suspended {σ T : Type} (body : σ → generator.BodyStep σ T)
    {heap : List (generator.Frame σ T)} {it : generator.iterator} {f : generator.Frame σ T}
    (hf : frameAt heap it.coro_.handle_ = some f) (hs : f.status = .suspended) :
    it.operator_inc (generator.builtins body) heap
      = (it.coro_.resume (generator.builtins body) heap).bind fun _ heap2 => .ok it heap2 := by
  simp [generator.iterator.operator_inc, generator.done_of_suspended body hf hs, Outcome.bind]

theorem generator.operator_inc_of_final {σ T : Type} (body : σ → generator.BodyStep σ T)
    {heap : List (generator.Frame σ T)} {it : generator.iterator} {f : generator.Frame σ T}
    (hf : frameAt heap it.coro_.handle_ = some f) (hs : f.status = .final) :
    it.operator_inc (generator.builtins body) heap = .ok ⟨coroutine_handle.null⟩ heap := by
  simp [generator.iterator.operator_inc, generator.done_of_final body hf hs, Outcome.bind]

theorem generator.operator_inc_of_null {S : Type} (B : Builtins S) (heap : S) :
    generator.iterator.operator_inc B ⟨coroutine_handle.null⟩ heap = .assertFail := rfl

/-- C12: for an iterator on a parked frame.  If the frame is not finished
(`it` on `heap`), `++it` resumes it exactly once; afterwards either the body has
yielded again and `*it` is the newly yielded value, or the body has ended and
`it` compares equal to the end sentinel (also when it ended by an exception,
which leaves `++it`).  If the frame is already finished (`it2` on `heap2`),
`++it2` resumes nothing, leaves the heap as it is, and nulls the handle of the
iterator. -/
theorem pre_increment_steps {σ T : Type} (body : σ → generator.BodyStep σ T)
    (it : generator.iterator) (heap : List (generator.Frame σ T)) (f : generator.Frame σ T)
    (it2 : generator.iterator) (heap2 : List (generator.Frame σ T)) (f2 : generator.Frame σ T)
    (hf : frameAt heap it.coro_.handle_ = some f) (hs : f.status = .suspended)
    (hf2 : frameAt heap2 it2.coro_.handle_ = some f2) (hs2 : f2.status = .final) :
    (∃ heap1 f1,
        (it.operator_inc (generator.builtins body) heap).heap? = some heap1
        ∧ frameAt heap1 it.coro_.handle_ = some f1
        ∧ f1.resumes = f.resumes + 1
        ∧ (∀ v next, body f.locals = .yield v next →
            it.operator_inc (generator.builtins body) heap = .ok it heap1
            ∧ f1.status = .suspended
            ∧ it.operator_deref heap1 = .ok v heap1)
        ∧ (body f.locals = .ret →
            it.operator_inc (generator.builtins body) heap = .ok it heap1
            ∧ f1.status = .final
            ∧ it.operator_eq (generator.builtins body) heap1 = .ok true heap1)
        ∧ (body f.locals = .raise →
            it.operator_inc (generator.builtins body) heap = .threw heap1
            ∧ f1.status = .final
            ∧ it.operator_eq (generator.builtins body) heap1 = .ok true heap1))
    ∧ it2.operator_inc (generator.builtins body) heap2 = .ok ⟨coroutine_handle.null⟩ heap2 := by
  refine ⟨?_, generator.operator_inc_of_final body hf2 hs2⟩
  rw [generator.operator_inc_of_suspended body hf hs]
  cases hb : body f.locals with
  | yield v next =>
      rw [generator.resume_yield body hf hs hb]
      refine ⟨_, _, rfl, frameAt_storeAt_same hf, rfl, ?_, ?_, ?_⟩
      · intro v1 next1 h1
        cases h1
        exact ⟨rfl, rfl, generator.deref_of_value (frameAt_storeAt_same hf) (by simp) rfl⟩
      · intro h1; cases h1
      · intro h1; cases h1
  | ret =>
      rw [generator.resume_ret body hf hs hb]
      refine ⟨_, _, rfl, frameAt_storeAt_same hf, rfl, ?_, ?_, ?_⟩
      · intro v1 next1 h1; cases h1
      · intro _
        exact ⟨rfl, rfl, generator.done_of_final body (frameAt_storeAt_same hf) rfl⟩
      · intro h1; cases h1
  | raise =>
      rw [generator.resume_raise body hf hs hb]
      refine ⟨_, _, rfl, frameAt_storeAt_same hf, rfl, ?_, ?_, ?_⟩
      · intro v1 next1 h1; cases h1
      · intro h1; cases h1
      · intro _
        exact ⟨rfl, rfl, generator.done_of_final body (frameAt_storeAt_same hf) rfl⟩

/-- Witness of C12: the iterator of `iota(3)` after `begin()`, and the iterator
of `iota(2)` once its frame has finished. -/
theorem pre_increment_steps_witness :
    (∃ heap1 f1,
        (generator.iterator.operator_inc (generator.builtins iota) ⟨⟨1⟩⟩
            ([{ status := .suspended, promise := { value_ := some 0 },
                locals := { n := 3, i := some 0 }, resumes := 1 }] : IotaHeap)).heap?
          = some heap1
        ∧ frameAt heap1 1 = some f1
        ∧ f1.resumes = 1 + 1
        ∧ (∀ v next, iota { n := 3, i := some 0 } = .yield v next →
            generator.iterator.operator_inc (generator.builtins iota) ⟨⟨1⟩⟩
                ([{ status := .suspended, promise := { value_ := some 0 },
                    locals := { n := 3, i := some 0 }, resumes := 1 }] : IotaHeap)
              = .ok ⟨⟨1⟩⟩ heap1
            ∧ f1.status = .suspended
            ∧ generator.iterator.operator_deref ⟨⟨1⟩⟩ heap1 = .ok v heap1)
        ∧ (iota { n := 3, i := some 0 } = .ret →
            generator.iterator.operator_inc (generator.builtins iota) ⟨⟨1⟩⟩
                ([{ status := .suspended, promise := { value_ := some 0 },
                    locals := { n := 3, i := some 0 }, resumes := 1 }] : IotaHeap)
              = .ok ⟨⟨1⟩⟩ heap1
            ∧ f1.status = .final
            ∧ generator.iterator.operator_eq (generator.builtins iota) ⟨⟨1⟩⟩ heap1
                = .ok true heap1)
        ∧ (iota { n := 3, i := some 0 } = .raise →
            generator.iterator.operator_inc (generator.builtins iota) ⟨⟨1⟩⟩
                ([{ status := .suspended, promise := { value_ := some 0 },
                    locals := { n := 3, i := some 0 }, resumes := 1 }] : IotaHeap)
              = .threw heap1
            ∧ f1.status = .final
            ∧ generator.iterator.operator_eq (generator.builtins iota) ⟨⟨1⟩⟩ heap1
                = .ok true heap1))
    ∧ generator.iterator.operator_inc (generator.builtins iota) ⟨⟨1⟩⟩
          ([{ status := .final, promise := { value_ := some 1 },
              locals := { n := 2, i := some 1 }, resumes := 3 }] : IotaHeap)
        = .ok ⟨coroutine_handle.null⟩
            [{ status := .final, promise := { value_ := some 1 },
               locals := { n := 2, i := some 1 }, resumes := 3 }] :=
  pre_increment_steps iota ⟨⟨1⟩⟩
    [{ status := .suspended, promise := { value_ := some 0 },
       locals := { n := 3, i := some 0 }, resumes := 1 }]
    { status := .suspended, promise := { value_ := some 0 },
      locals := { n := 3, i := some 0 }, resumes := 1 }
    ⟨⟨1⟩⟩
    [{ status := .final, promise := { value_ := some 1 },
       locals := { n := 2, i := some 1 }, resumes := 3 }]
    { status := .final, promise := { value_ := some 1 },
      locals := { n := 2, i := some 1 }, resumes := 3 } rfl rfl rfl rfl

/-- C13: the frame of `g` is finished and an iterator has reached the end: it is
`it`, which still holds the handle of the finished frame, or the iterator whose
handle has been nulled.  Then `empty()` is `true`; the first `++it` nulls the
handle and every `++` on a null handle fails the assertion of `done()`; so any
number `n` of further advances either is rejected by that assertion or returns
with the heap exactly as it was: no resume is made and `empty()` stays `true`. -/
theorem advances_past_end_resume_nothing {σ T : Type} (body : σ → generator.BodyStep σ T)
    (g : generator) (it : generator.iterator) (heap : List (generator.Frame σ T))
    (f : generator.Frame σ T)
    (hf : frameAt heap g.coro_.handle_ = some f) (hs : f.status = .final)
    (hit : it.coro_ = g.coro_) :
    g.empty (generator.builtins body) heap = .ok true heap
    ∧ generator.iterator.advances (generator.builtins body) 1 it heap
        = .ok ⟨coroutine_handle.null⟩ heap
    ∧ (∀ n, generator.iterator.advances (generator.builtins body) (n + 2) it heap = .assertFail)
    ∧ (∀ n, generator.iterator.advances (generator.builtins body) (n + 1)
              ⟨coroutine_handle.null⟩ heap = .assertFail)
    ∧ (∀ n it0, it0 = it ∨ it0 = ⟨coroutine_handle.null⟩ →
        generator.iterator.advances (generator.builtins body) n it0 heap = .assertFail
        ∨ ∃ it1, generator.iterator.advances (generator.builtins body) n it0 heap
            = .ok it1 heap) := by
  have hnull : ∀ m, generator.iterator.advances (generator.builtins body) (m + 1)
      ⟨coroutine_handle.null⟩ heap = .assertFail := by
    intro m
    simp [generator.iterator.advances, generator.operator_inc_of_null, Outcome.bind]
  have hlive : generator.iterator.operator_inc (generator.builtins body) it heap
      = .ok ⟨coroutine_handle.null⟩ heap :=
    generator.operator_inc_of_final body (by rw [hit]; exact hf) hs
  have h1 : generator.iterator.advances (generator.builtins body) 1 it heap
      = .ok ⟨coroutine_handle.null⟩ heap := by
    simp [generator.iterator.advances, hlive, Outcome.bind]
  have h2 : ∀ m, generator.iterator.advances (generator.builtins body) (m + 2) it heap
      = .assertFail := by
    intro m
    rw [generator.iterator.advances, hlive]
    exact hnull m
  refine ⟨generator.done_of_final body hf hs, h1, h2, hnull, ?_⟩
  intro n it0 h0
  cases n with
  | zero => exact Or.inr ⟨it0, rfl⟩
  | succ m =>
      rcases h0 with rfl | rfl
      · cases m with
        | zero => exact Or.inr ⟨_, h1⟩
        | succ k => exact Or.inl (h2 k)
      · exact Or.inl (hnull m)

/-- Witness of C13 on the finished frame of `iota(2)` and the iterator that
still holds its handle. -/
theorem advances_past_end_resume_nothing_witness :
    generator.empty (generator.builtins iota) ⟨⟨1⟩⟩
        ([{ status := .final, promise := { value_ := some 1 },
            locals := { n := 2, i := some 1 }, resumes := 3 }] : IotaHeap)
      = .ok true
          [{ status := .final, promise := { value_ := some 1 },
             locals := { n := 2, i := some 1 }, resumes := 3 }]
    ∧ generator.iterator.advances (generator.builtins iota) 1 ⟨⟨1⟩⟩
        ([{ status := .final, promise := { value_ := some 1 },
            locals := { n := 2, i := some 1 }, resumes := 3 }] : IotaHeap)
      = .ok ⟨coroutine_handle.null⟩
          [{ status := .final, promise := { value_ := some 1 },
             locals := { n := 2, i := some 1 }, resumes := 3 }]
    ∧ (∀ n, generator.iterator.advances (generator.builtins iota) (n + 2) ⟨⟨1⟩⟩
        ([{ status := .final, promise := { value_ := some 1 },
            locals := { n := 2, i := some 1 }, resumes := 3 }] : IotaHeap) = .assertFail)
    ∧ (∀ n, generator.iterator.advances (generator.builtins iota) (n + 1)
        ⟨coroutine_handle.null⟩
        ([{ status := .final, promise := { value_ := some 1 },
            locals := { n := 2, i := some 1 }, resumes := 3 }] : IotaHeap) = .assertFail)
    ∧ (∀ n it0, it0 = ⟨⟨1⟩⟩ ∨ it0 = ⟨coroutine_handle.null⟩ →
        generator.iterator.advances (generator.builtins iota) n it0
          ([{ status := .final, promise := { value_ := some 1 },
              locals := { n := 2, i := some 1 }, resumes := 3 }] : IotaHeap) = .assertFail
        ∨ ∃ it1, generator.iterator.advances (generator.builtins iota) n it0
          ([{ status := .final, promise := { value_ := some 1 },
              locals := { n := 2, i := some 1 }, resumes := 3 }] : IotaHeap)
            = .ok it1
                [{ status := .final, promise := { value_ := some 1 },
                   locals := { n := 2, i := some 1 }, resumes := 3 }]) :=
  advances_past_end_resume_nothing iota ⟨⟨1⟩⟩ ⟨⟨1⟩⟩
    [{ status := .final, promise := { value_ := some 1 },
       locals := { n := 2, i := some 1 }, resumes := 3 }]
    { status := .final, promise := { value_ := some 1 },
      locals := { n := 2, i := some 1 }, resumes := 3 } rfl rfl rfl

/-- C14: for all handles `a` and `b`, null ones included, `a == b` holds exactly
when `a.address() == b.address()`, and whenever `a == b` the hashes of `a` and
`b` are equal, whatever the pointer hash: the hash is a function of the address
alone. -/
theorem handle_eq_iff_same_address (a b : coroutine_handle) (hashPtr : Nat → Nat) :
    (coroutine_handle.operator_eq a b = true ↔ a.address = b.address)
    ∧ (coroutine_handle.operator_eq a b = true →
        coroutine_handle.hash hashPtr a = coroutine_handle.hash hashPtr b)
    ∧ coroutine_handle.hash hashPtr a = hashPtr a.address := by
  refine ⟨by simp [coroutine_handle.operator_eq], ?_, rfl⟩
  intro h
  have : a.address = b.address := by simpa [coroutine_handle.operator_eq] using h
  simp [coroutine_handle.hash, this]

/-- C15: for a generator that owns a parked frame, `empty()` returns `true`
exactly when the frame is finished, and leaves the heap as it is (nothing is
resumed).  In particular a generator freshly made from a producer that yields
nothing reports `empty() == false`, and `true` once `begin()` has advanced it. -/
theorem empty_iff_finished {σ T : Type} (body : σ → generator.BodyStep σ T) (g : generator)
    (heap : List (generator.Frame σ T)) (f : generator.Frame σ T) (args : σ)
    (heap0 : List (generator.Frame σ T))
    (hf : frameAt heap g.coro_.handle_ = some f)
    (hpark : f.status = .suspended ∨ f.status = .final)
    (hnone : generator.Produces body args [] false) :
    g.empty (generator.builtins body) heap = .ok (decide (f.status = .final)) heap
    ∧ ∃ g0 heap1 b heap2,
        generator.create body args heap0 = .ok g0 heap1
        ∧ g0.empty (generator.builtins body) heap1 = .ok false heap1
        ∧ g0.begin (generator.builtins body) heap1 = .ok b heap2
        ∧ g0.empty (generator.builtins body) heap2 = .ok true heap2 := by
  constructor
  · rcases hpark with hs | hs
    · rw [generator.empty, generator.done_of_suspended body hf hs]; simp [hs]
    · rw [generator.empty, generator.done_of_final body hf hs]; simp [hs]
  · have hf0 : frameAt
        (heap0 ++ [({ status := .suspended, promise := { value_ := none }, locals := args,
                      resumes := 0 } : generator.Frame σ T)])
        (generator.mk ⟨heap0.length + 1⟩).coro_.handle_ = some _ := frameAt_append_new heap0 _
    have hb : body args = .ret := by
      simp only [generator.Produces] at hnone
      cases hbody : body args <;> simp_all
    refine ⟨_, _, ⟨⟨heap0.length + 1⟩⟩,
      storeAt
        (heap0 ++ [{ status := .suspended, promise := { value_ := none }, locals := args,
                     resumes := 0 }])
        (heap0.length + 1)
        { status := .final, promise := { value_ := none }, locals := args, resumes := 0 + 1 },
      create_parks body args heap0, generator.done_of_suspended body hf0 rfl, ?_, ?_⟩
    · rw [generator.begin_of_suspended body hf0 rfl, generator.resume_ret body hf0 rfl hb]
      rfl
    · exact generator.done_of_final body (frameAt_storeAt_same hf0) rfl

/-- Witness of C15: the parked frame of `iota(3)`, and the producer `iota(0)`,
which yields nothing. -/
theorem empty_iff_finished_witness :
    generator.empty (generator.builtins iota) ⟨⟨1⟩⟩
        ([{ status := .suspended, promise := { value_ := some 0 },
            locals := { n := 3, i := some 0 }, resumes := 1 }] : IotaHeap)
      = .ok (decide (Status.suspended = Status.final))
          [{ status := .suspended, promise := { value_ := some 0 },
             locals := { n := 3, i := some 0 }, resumes := 1 }]
    ∧ ∃ g0 heap1 b heap2,
        generator.create iota { n := 0, i := none } [] = .ok g0 heap1
        ∧ g0.empty (generator.builtins iota) heap1 = .ok false heap1
        ∧ g0.begin (generator.builtins iota) heap1 = .ok b heap2
        ∧ g0.empty (generator.builtins iota) heap2 = .ok true heap2 :=
  empty_iff_finished iota ⟨⟨1⟩⟩
    [{ status := .suspended, promise := { value_ := some 0 },
       locals := { n := 3, i := some 0 }, resumes := 1 }]
    { status := .suspended, promise := { value_ := some 0 },
      locals := { n := 3, i := some 0 }, resumes := 1 }
    { n := 0, i := none } [] rfl (Or.inl rfl) (by simp [generator.Produces, iota])

/-- C16: `i2` is a copy of the iterator `i1` over a generator whose frame is
parked and not finished.  Advancing `i1` changes what `i2` sees: when the body
yields again, `*i2` is the newly yielded value; when the body ends, `i2`
compares equal to the end sentinel.  Both iterators read the one frame. -/
theorem iterators_share_frame {σ T : Type} (body : σ → generator.BodyStep σ T)
    (i1 i2 : generator.iterator) (heap : List (generator.Frame σ T)) (f : generator.Frame σ T)
    (hcopy : i2 = i1) (hf : frameAt heap i1.coro_.handle_ = some f)
    (hs : f.status = .suspended) :
    ∃ heap1,
      (i1.operator_inc (generator.builtins body) heap).heap? = some heap1
      ∧ (∀ v next, body f.locals = .yield v next →
          i1.operator_inc (generator.builtins body) heap = .ok i1 heap1
          ∧ i2.operator_deref heap1 = .ok v heap1
          ∧ i2.operator_eq (generator.builtins body) heap1 = .ok false heap1)
      ∧ (body f.locals = .ret →
          i1.operator_inc (generator.builtins body) heap = .ok i1 heap1
          ∧ i2.operator_eq (generator.builtins body) heap1 = .ok true heap1) := by
  subst hcopy
  rw [generator.operator_inc_of_suspended body hf hs]
  cases hb : body f.locals with
  | yield v next =>
      rw [generator.resume_yield body hf hs hb]
      refine ⟨_, rfl, ?_, ?_⟩
      · intro v1 next1 h1
        cases h1
        exact ⟨rfl, generator.deref_of_value (frameAt_storeAt_same hf) (by simp) rfl,
          generator.done_of_suspended body (frameAt_storeAt_same hf) rfl⟩
      · intro h1; cases h1
  | ret =>
      rw [generator.resume_ret body hf hs hb]
      refine ⟨_, rfl, ?_, ?_⟩
      · intro v1 next1 h1; cases h1
      · intro _
        exact ⟨rfl, generator.done_of_final body (frameAt_storeAt_same hf) rfl⟩
  | raise =>
      rw [generator.resume_raise body hf hs hb]
      refine ⟨_, rfl, ?_, ?_⟩
      · intro v1 next1 h1; cases h1
      · intro h1; cases h1

/-- Witness of C16: two copies of the iterator of `iota(3)` after `begin()`. -/
theorem iterators_share_frame_witness :
    ∃ heap1,
      (generator.iterator.operator_inc (generator.builtins iota) ⟨⟨1⟩⟩
          ([{ status := .suspended, promise := { value_ := some 0 },
              locals := { n := 3, i := some 0 }, resumes := 1 }] : IotaHeap)).heap? = some heap1
      ∧ (∀ v next, iota { n := 3, i := some 0 } = .yield v next →
          generator.iterator.operator_inc (generator.builtins iota) ⟨⟨1⟩⟩
              ([{ status := .suspended, promise := { value_ := some 0 },
                  locals := { n := 3, i := some 0 }, resumes := 1 }] : IotaHeap)
            = .ok ⟨⟨1⟩⟩ heap1
          ∧ generator.iterator.operator_deref ⟨⟨1⟩⟩ heap1 = .ok v heap1
          ∧ generator.iterator.operator_eq (generator.builtins iota) ⟨⟨1⟩⟩ heap1
              = .ok false heap1)
      ∧ (iota { n := 3, i := some 0 } = .ret →
          generator.iterator.operator_inc (generator.builtins iota) ⟨⟨1⟩⟩
              ([{ status := .suspended, promise := { value_ := some 0 },
                  locals := { n := 3, i := some 0 }, resumes := 1 }] : IotaHeap)
            = .ok ⟨⟨1⟩⟩ heap1
          ∧ generator.iterator.operator_eq (generator.builtins iota) ⟨⟨1⟩⟩ heap1
              = .ok true heap1) :=
  iterators_share_frame iota ⟨⟨1⟩⟩ ⟨⟨1⟩⟩
    [{ status := .suspended, promise := { value_ := some 0 },
       locals := { n := 3, i := some 0 }, resumes := 1 }]
    { status := .suspended, promise := { value_ := some 0 },
      locals := { n := 3, i := some 0 }, resumes := 1 } rfl rfl rfl

/-- C17 (the code at the failing input): for the iterator of `iota(3)` after
`begin()`, whose handle is non-null and whose frame is not finished,
`it == default_sentinel` is `false` and the hand-written
`default_sentinel != it` is `false` as well; on the finished frame of `iota(2)`
both are `true`.  The two operators have the same body, `coro_.done()`, so the
second is never the negation of the first. -/
theorem sentinel_ne_equals_sentinel_eq :
    generator.iterator.operator_eq (generator.builtins iota) ⟨⟨1⟩⟩
        ([{ status := .suspended, promise := { value_ := some 0 },
            locals := { n := 3, i := some 0 }, resumes := 1 }] : IotaHeap)
      = .ok false
          [{ status := .suspended, promise := { value_ := some 0 },
             locals := { n := 3, i := some 0 }, resumes := 1 }]
    ∧ generator.iterator.operator_ne (generator.builtins iota) ⟨⟨1⟩⟩
        ([{ status := .suspended, promise := { value_ := some 0 },
            locals := { n := 3, i := some 0 }, resumes := 1 }] : IotaHeap)
      = .ok false
          [{ status := .suspended, promise := { value_ := some 0 },
             locals := { n := 3, i := some 0 }, resumes := 1 }]
    ∧ generator.iterator.operator_eq (generator.builtins iota) ⟨⟨1⟩⟩
        ([{ status := .final, promise := { value_ := some 1 },
            locals := { n := 2, i := some 1 }, resumes := 3 }] : IotaHeap)
      = .ok true
          [{ status := .final, promise := { value_ := some 1 },
             locals := { n := 2, i := some 1 }, resumes := 3 }]
    ∧ generator.iterator.operator_ne (generator.builtins iota) ⟨⟨1⟩⟩
        ([{ status := .final, promise := { value_ := some 1 },
            locals := { n := 2, i := some 1 }, resumes := 3 }] : IotaHeap)
      = .ok true
          [{ status := .final, promise := { value_ := some 1 },
             locals := { n := 2, i := some 1 }, resumes := 3 }] := by
  refine ⟨rfl, rfl, rfl, rfl⟩

theorem generator.checked_deref_ok {σ T : Type} {it : generator.iterator}
    {heap heap1 : List (generator.Frame σ T)} {v : T}
    (h : it.checked_deref heap = .ok v heap1) : it.operator_deref heap = .ok v heap1 := by
  unfold generator.iterator.checked_deref at h
  cases hfr : frameAt heap it.coro_.handle_ with
  | none => rw [hfr] at h; cases h
  | some f =>
      rw [hfr] at h
      cases hst : f.status <;> simp only [hst] at h
      · exact h
      · exact h
      · cases h
      · exact h

/-- A checked range-for loop that returns normally is the plain loop: holding
the dereferences to their contract only adds ways to fail. -/
theorem generator.rangeLoop_of_checked {σ T : Type} (B : Builtins (List (generator.Frame σ T)))
    (fuel : Nat) :
    ∀ (b : generator.iterator) (acc : List T) (heap : List (generator.Frame σ T))
      (r : List T × generator.iterator) (heap1 : List (generator.Frame σ T)),
      generator.rangeLoopChecked B fuel b acc heap = .ok r heap1 →
      generator.rangeLoop B fuel b acc heap = .ok r heap1 := by
  induction fuel with
  | zero =>
      intro b acc heap r heap1 h
      simp [generator.rangeLoopChecked] at h
  | succ fuel ih =>
      intro b acc heap r heap1 h
      simp only [generator.rangeLoopChecked, generator.rangeLoop] at h ⊢
      cases he : b.operator_eq B heap with
      | ok atEnd h1 =>
          rw [he] at h
          simp only [Outcome.bind] at h ⊢
          cases atEnd with
          | true => simpa using h
          | false =>
              simp only [Bool.false_eq_true, if_false] at h ⊢
              cases hd : b.checked_deref h1 with
              | ok item h2 =>
                  rw [hd] at h
                  rw [generator.checked_deref_ok hd]
                  simp only at h ⊢
                  cases hi : b.operator_inc B h2 with
                  | ok b1 h3 =>
                      rw [hi] at h
                      simp only at h ⊢
                      exact ih _ _ _ _ _ h
                  | threw _ => rw [hi] at h; cases h
                  | assertFail => rw [hi] at h; cases h
                  | ub => rw [hi] at h; cases h
                  | outOfFuel => rw [hi] at h; cases h
              | threw _ => rw [hd] at h; cases h
              | assertFail => rw [hd] at h; cases h
              | ub => rw [hd] at h; cases h
              | outOfFuel => rw [hd] at h; cases h
      | threw _ => rw [he] at h; cases h
      | assertFail => rw [he] at h; cases h
      | ub => rw [he] at h; cases h
      | outOfFuel => rw [he] at h; cases h

/-- C18: for a generator freshly made from a producer that yields the finitely
many values `vs` (possibly none) and returns, one full range-for returns
normally, also when every dereference is held to its contract.  A normal return
means that no `assert` failed (`resume()` was not called on a null or finished
handle, `done()` was not called on a null handle), that no builtin was called
outside its precondition, and that no dereference met a finished frame. -/
theorem range_for_keeps_preconditions {σ T : Type} (body : σ → generator.BodyStep σ T)
    (args : σ) (vs : List T) (heap : List (generator.Frame σ T)) (fuel : Nat)
    (hp : generator.Produces body args vs false) (hfuel : vs.length + 1 ≤ fuel) :
    ∃ g heap1 b heap2,
      generator.create body args heap = .ok g heap1
      ∧ generator.rangeForChecked (generator.builtins body) fuel g heap1 = .ok (vs, b) heap2
      ∧ generator.rangeFor (generator.builtins body) fuel g heap1 = .ok (vs, b) heap2 := by
  have hf0 : frameAt
      (heap ++ [({ status := .suspended, promise := { value_ := none }, locals := args,
                   resumes := 0 } : generator.Frame σ T)])
      (generator.mk ⟨heap.length + 1⟩).coro_.handle_ = some _ := frameAt_append_new heap _
  obtain ⟨heap2, f2, hrun, -, -, -, -⟩ :=
    generator.rangeForChecked_produces body vs fuel ⟨⟨heap.length + 1⟩⟩ _ _ hf0 rfl hp hfuel
  refine ⟨_, _, _, heap2, create_parks body args heap, hrun, ?_⟩
  simp only [generator.rangeForChecked, generator.rangeFor] at hrun ⊢
  cases hbeg : generator.begin (generator.builtins body) ⟨⟨heap.length + 1⟩⟩
      (heap ++ [{ status := .suspended, promise := { value_ := none }, locals := args,
                  resumes := 0 }]) with
  | ok b1 h1 =>
      rw [hbeg] at hrun
      exact generator.rangeLoop_of_checked _ fuel _ _ _ _ _ hrun
  | threw _ => rw [hbeg] at hrun; cases hrun
  | assertFail => rw [hbeg] at hrun; cases hrun
  | ub => rw [hbeg] at hrun; cases hrun
  | outOfFuel => rw [hbeg] at hrun; cases hrun

/-- Witness of C18 on `iota(3)` and on `iota(0)`, which yields nothing. -/
theorem range_for_keeps_preconditions_witness :
    (∃ g heap1 b heap2,
      generator.create iota { n := 3, i := none } [] = .ok g heap1
      ∧ generator.rangeForChecked (generator.builtins iota) 4 g heap1 = .ok ([0, 1, 2], b) heap2
      ∧ generator.rangeFor (generator.builtins iota) 4 g heap1 = .ok ([0, 1, 2], b) heap2)
    ∧ ∃ g heap1 b heap2,
      generator.create iota { n := 0, i := none } [] = .ok g heap1
      ∧ generator.rangeForChecked (generator.builtins iota) 1 g heap1 = .ok ([], b) heap2
      ∧ generator.rangeFor (generator.builtins iota) 1 g heap1 = .ok ([], b) heap2 :=
  ⟨range_for_keeps_preconditions iota { n := 3, i := none } [0, 1, 2] [] 4
      (by simp [generator.Produces, iota]) (by decide),
   range_for_keeps_preconditions iota { n := 0, i := none } [] [] 1
      (by simp [generator.Produces, iota]) (by decide)⟩

end SymmetricTransfer
